import Mathlib

/-!
Verification of the dive-log dashboard core.

Shallow embedding of the dashboard generator's core logic: the record
normalizer (extract_dive_data), the trip aggregator (calculate_trip_stats),
the dataset merge engine (mergeNewDives), the photo-temporal matcher
(buildDivePhotoMap / clearDivePhotosForTrip / parseLocalMs), the
photo-cluster dive synthesizer (generateDivesFromPhotos), and the profile
synthesizer (generateDepthProfile / interpolateDepth).

Modelling conventions:
* Python/JavaScript numbers are modelled as Int or Rat.  Where JavaScript
  float special values (NaN, Infinity) can actually arise (the estimated
  depth-profile arithmetic), they are modelled explicitly by the JSNum type.
* Fallible parses (JavaScript NaN timestamps, Python strptime failures)
  are modelled with Option.
* DOM manipulation and rendering calls in the source are UI glue and have
  no effect on the data collections; they are omitted from the embedding.
-/

namespace DiveLog

/-- Floor of a rational, computed structurally on its reduced fraction
(the denominator is positive, so Int.fdiv is the mathematical floor). -/
def ratFloor (q : ℚ) : ℤ := q.num.fdiv q.den

/-- Python round(): round half to even (banker's rounding) to an integer. -/
def pyRound (q : ℚ) : ℤ :=
  let f := ratFloor q
  let r := q - f
  if r < 1/2 then f
  else if 1/2 < r then f + 1
  else if f % 2 = 0 then f else f + 1

/-- Python round(x, 1): one-decimal round half to even. -/
def pyRound1 (q : ℚ) : ℚ := (pyRound (q * 10) : ℚ) / 10

/-- JavaScript Math.round: round half toward positive infinity. -/
def jsRound (q : ℚ) : ℤ := ratFloor (q + 1/2)

theorem ratFloor_eq_floor (q : ℚ) : ratFloor q = ⌊q⌋ := by
  rw [Rat.floor_def, ratFloor,
    Int.fdiv_eq_ediv _ (by exact_mod_cast Nat.zero_le q.den)]

theorem jsRound_eq (q : ℚ) : jsRound q = ⌊q + 1/2⌋ := by
  rw [jsRound, ratFloor_eq_floor]

/-- Two-digit zero padding, as used by strftime('%H:%M') and by the
JavaScript String(n).padStart(2, '0') calls (arguments are 0..59 here). -/
def pad2 (n : ℤ) : String :=
  if 0 ≤ n ∧ n < 10 then "0" ++ toString n else toString n

/-- Lower-casing of one character: ASCII letters plus the Latin-1 capital
range (this covers the character Ç appearing in the location data). -/
def charLower (c : Char) : Char :=
  if 'A' ≤ c ∧ c ≤ 'Z' then Char.ofNat (c.toNat + 32)
  else if 0xC0 ≤ c.toNat ∧ c.toNat ≤ 0xDE ∧ c.toNat ≠ 0xD7 then Char.ofNat (c.toNat + 32)
  else c

/-- Whitespace for the trim operations (ASCII whitespace suffices for the
strings this program handles). -/
def isSpaceChar (c : Char) : Bool :=
  c == ' ' || c == '\t' || c == '\n' || c == '\r'

/-- Trim whitespace from both ends of a character list. -/
def trimChars (l : List Char) : List Char :=
  ((l.dropWhile (isSpaceChar ·)).reverse.dropWhile (isSpaceChar ·)).reverse

/-- JavaScript String.replace with a plain-string pattern: replace only the
first occurrence of pat by rep. -/
def replaceFirst : List Char → List Char → List Char → List Char
  | [], _, _ => []
  | c :: rest, pat, rep =>
    if pat.isPrefixOf (c :: rest) then rep ++ (c :: rest).drop pat.length
    else c :: replaceFirst rest pat rep

/-- normLoc from the dashboard script:
(s || '').toLowerCase().replace('curaçao','curacao').replace('curaco','curacao').trim() -/
def normLoc (s : String) : String :=
  let l := s.toList.map charLower
  let l := replaceFirst l "curaçao".toList "curacao".toList
  let l := replaceFirst l "curaco".toList "curacao".toList
  (trimChars l).asString

/-- Parse a nonempty all-digit character list as a natural number. -/
def digitsToNat? (l : List Char) : Option ℕ :=
  if l ≠ [] ∧ l.all (·.isDigit) then
    some (l.foldl (fun acc c => acc * 10 + (c.toNat - '0'.toNat)) 0)
  else none

/-- datetime.strptime(s, '%H:%M'): one or two hour digits, a colon, one or
two minute digits, hour below 24, minute below 60; None models the
exception path. -/
def parseHM (s : String) : Option (ℕ × ℕ) :=
  match s.split (· == ':') with
  | [h, m] =>
    match digitsToNat? h.toList, digitsToNat? m.toList with
    | some hv, some mv =>
      if hv < 24 ∧ mv < 60 ∧ h.length ≤ 2 ∧ m.length ≤ 2 then some (hv, mv) else none
    | _, _ => none
  | _ => none

/-- Python string slice s[a:b] (with 0 ≤ a ≤ b). -/
def pySlice (s : String) (a b : ℕ) : String :=
  ((s.toList.drop a).take (b - a)).asString

/-- One canonical dive record: the JSON object produced by the Python
extractor, also created by the photo-cluster synthesizer.  photoOnly is
absent (false) on extractor-produced dives. -/
structure Dive where
  number : ℤ
  date : String
  time : String
  endTime : String
  location : String
  site : String
  maxDepthM : ℚ
  maxDepthFt : ℤ
  durationMin : ℤ
  durationSec : ℤ
  startPSI : ℤ
  endPSI : ℤ
  gasUsed : ℤ
  o2Percent : ℤ
  avgTempC : ℚ
  avgDepthM : ℚ
  endGF99 : ℤ
  photoOnly : Bool := false
deriving DecidableEq, Repr

/-- One trip summary record.  endDate models the source's auxiliary
'_endDate' field (used only as the sort key). -/
structure Trip where
  name : String
  dates : String
  dives : ℕ
  hours : ℚ
  maxDepth : ℚ
  avgGas : ℤ
  color : String
  endDate : String
deriving DecidableEq, Repr, Inhabited

/-! ## Record Normalizer: extract_dive_data

The SQL query and JSON decoding are I/O glue; the embedding starts from the
decoded row.  A db NULL in row[i] is Option.none; a null JSON blob decodes
to the empty dict, which is modelled by none as well. -/

/-- The GasProfile sub-object of a tank entry.  A missing or empty dict is
falsy in Python; both are modelled by none at the TankEntry level. -/
structure GasProfile where
  o2Percent : Option ℤ
deriving DecidableEq, Repr

/-- One entry of the TankData list inside the tank-profile blob. -/
structure TankEntry where
  startPressurePSI : Option ℤ
  endPressurePSI : Option ℤ
  gasProfile : Option GasProfile
deriving DecidableEq, Repr

/-- The decoded tank-profile blob. A missing 'TankData' key is the empty
list. -/
structure TankBlob where
  tankData : List TankEntry
deriving DecidableEq, Repr

/-- The decoded calculated_values_from_samples blob. -/
structure CalcBlob where
  averageTemp : Option ℚ
  averageDepth : Option ℚ
  endGF99 : Option ℚ
deriving DecidableEq, Repr

/-- One raw row of the dive_details/log_data join. -/
structure RawRow where
  diveNumber : Option ℤ
  diveDate : Option String
  location : Option String
  site : Option String
  depth : Option ℚ
  diveLengthTime : Option ℤ
  tank : Option TankBlob
  calcVals : Option CalcBlob
deriving DecidableEq, Repr

/-- Python (td.get(k) or 0): None and 0 are both falsy and yield 0. -/
def pyOrZero : Option ℤ → ℤ
  | none => 0
  | some v => if v = 0 then 0 else v

/-- The first tank-profile entry, present exactly when
tank_data.get('TankData') is truthy (nonempty). -/
def firstTank (r : RawRow) : Option TankEntry :=
  match r.tank with
  | some tb => tb.tankData.head?
  | none => none

/-- start_psi of a row. -/
def rowStartPsi (r : RawRow) : ℤ :=
  match firstTank r with
  | some td => pyOrZero td.startPressurePSI
  | none => 0

/-- end_psi of a row. -/
def rowEndPsi (r : RawRow) : ℤ :=
  match firstTank r with
  | some td => pyOrZero td.endPressurePSI
  | none => 0

/-- gasUsed: start_psi - end_psi if start_psi and end_psi else 0
(Python truthiness: an int is truthy when nonzero). -/
def rowGasUsed (r : RawRow) : ℤ :=
  if rowStartPsi r ≠ 0 ∧ rowEndPsi r ≠ 0 then rowStartPsi r - rowEndPsi r else 0

/-- o2_pct: read from the first tank entry's GasProfile when that dict is
truthy, defaulting to 21 (air). -/
def rowO2 (r : RawRow) : ℤ :=
  match firstTank r with
  | some td =>
    match td.gasProfile with
    | some gp => gp.o2Percent.getD 21
    | none => 21
  | none => 21

/-- end_time: strptime(start_time, '%H:%M') plus durationSec seconds,
formatted '%H:%M'; any parse failure degrades to ''.  datetime arithmetic
wraps through days, so only the time of day modulo 86400 remains. -/
def deriveEndTime (startTime : String) (durationSec : ℤ) : String :=
  match parseHM startTime with
  | none => ""
  | some (h, m) =>
    let total : ℤ := ((h * 3600 + m * 60 : ℕ) : ℤ) + durationSec
    let tday := total.emod 86400
    pad2 (tday / 3600) ++ ":" ++ pad2 (tday.emod 3600 / 60)

/-- The per-row body of extract_dive_data: one decoded row to one canonical
dive. -/
def extractDive (r : RawRow) : Dive :=
  let avgTempF : ℚ := match r.calcVals with | some c => c.averageTemp.getD 82 | none => 82
  let depthM : ℚ := match r.depth with | some q => if q = 0 then 0 else q | none => 0
  let durationSec : ℤ := match r.diveLengthTime with | some v => if v = 0 then 0 else v | none => 0
  let dateStr := r.diveDate.getD ""
  let startTime := if 11 < dateStr.length then pySlice dateStr 11 16 else ""
  let endTime := if startTime ≠ "" ∧ durationSec ≠ 0 then deriveEndTime startTime durationSec else ""
  { number := match r.diveNumber with | some v => if v = 0 then 0 else v | none => 0
    date := if r.diveDate.isSome then pySlice dateStr 0 10 else ""
    time := startTime
    endTime := endTime
    location := r.location.getD ""
    site := r.site.getD ""
    maxDepthM := pyRound1 depthM
    maxDepthFt := pyRound (depthM * 3.28084)
    durationMin := pyRound ((durationSec : ℚ) / 60)
    durationSec := durationSec
    startPSI := rowStartPsi r
    endPSI := rowEndPsi r
    gasUsed := rowGasUsed r
    o2Percent := rowO2 r
    avgTempC := pyRound1 ((avgTempF - 32) * 5 / 9)
    avgDepthM := pyRound1 ((match r.calcVals with | some c => c.averageDepth.getD 0 | none => 0) * 0.3048)
    endGF99 := pyRound (match r.calcVals with | some c => c.endGF99.getD 0 | none => 0) }

/-- extract_dive_data on the list of decoded rows (the SQL ORDER BY has
already ordered them). -/
def extract_dive_data (rows : List RawRow) : List Dive :=
  rows.map extractDive

theorem extractDive_gasUsed (r : RawRow) : (extractDive r).gasUsed = rowGasUsed r := rfl

theorem rowStartPsi_eq (r : RawRow) (te : TankEntry) (h : firstTank r = some te) :
    rowStartPsi r = pyOrZero te.startPressurePSI := by
  unfold rowStartPsi; rw [h]

theorem rowEndPsi_eq (r : RawRow) (te : TankEntry) (h : firstTank r = some te) :
    rowEndPsi r = pyOrZero te.endPressurePSI := by
  unfold rowEndPsi; rw [h]

/-! ## Claims C9 and C10 -/

/-- A row whose first tank entry records start pressure 1000 and end
pressure 2000. -/
def cRow9 : RawRow :=
  { diveNumber := some 7, diveDate := some "2024-03-10 09:00:00"
    location := some "Cozumel", site := some "Paradise Reef"
    depth := some 18, diveLengthTime := some 2400
    tank := some ⟨[⟨some 1000, some 2000, none⟩]⟩, calcVals := none }

/-- C9, counterexample: a row recording both pressures in the first tank
entry (start 1000, end 2000) yields a dive with gasUsed = -1000 < 0, so the
claimed invariant gasUsed ≥ 0 fails as stated. -/
theorem c9_counterexample :
    firstTank cRow9 = some ⟨some 1000, some 2000, none⟩ ∧
      (extractDive cRow9).gasUsed < 0 := by
  constructor
  · rfl
  · decide

/-- C9, amended: for every dive produced by the Record Normalizer in which
both a start pressure and an end pressure are recorded in the first
tank-profile entry and the start pressure is at least the end pressure, the
derived gasUsed field is ≥ 0. -/
theorem c9_gasUsed_nonneg (r : RawRow) (te : TankEntry) (s e : ℤ)
    (h1 : firstTank r = some te) (h2 : te.startPressurePSI = some s)
    (h3 : te.endPressurePSI = some e) (h4 : e ≤ s) :
    0 ≤ (extractDive r).gasUsed := by
  rw [extractDive_gasUsed]
  unfold rowGasUsed
  rw [rowStartPsi_eq r te h1, rowEndPsi_eq r te h1, h2, h3]
  simp only [pyOrZero]
  split_ifs <;> omega

/-- Witness row for C9: start 2500, end 900. -/
def wRow9 : RawRow :=
  { diveNumber := some 8, diveDate := some "2024-03-11 10:00:00"
    location := some "Cozumel", site := some ""
    depth := some 20, diveLengthTime := some 3000
    tank := some ⟨[⟨some 2500, some 900, none⟩]⟩, calcVals := none }

theorem c9_gasUsed_nonneg_witness :
    firstTank wRow9 = some ⟨some 2500, some 900, none⟩ ∧
      0 ≤ (extractDive wRow9).gasUsed :=
  ⟨rfl, c9_gasUsed_nonneg wRow9 ⟨some 2500, some 900, none⟩ 2500 900 rfl rfl rfl (by decide)⟩

/-- C10: a pressure recorded as exactly 0 in the first tank entry is
treated like a missing pressure: gasUsed is 0 rather than start - end. -/
theorem c10_zero_pressure_as_missing (r : RawRow) (te : TankEntry)
    (h1 : firstTank r = some te)
    (h2 : te.endPressurePSI = some 0 ∨ te.startPressurePSI = some 0) :
    (extractDive r).gasUsed = 0 := by
  rw [extractDive_gasUsed]
  unfold rowGasUsed
  rw [rowStartPsi_eq r te h1, rowEndPsi_eq r te h1]
  rcases h2 with h | h <;> rw [h] <;> simp [pyOrZero]

/-- Witness row for C10: positive start pressure 2500, end pressure
recorded as 0. -/
def wRow10 : RawRow :=
  { diveNumber := some 9, diveDate := some "2024-03-12 10:00:00"
    location := some "Bonaire", site := some ""
    depth := some 15, diveLengthTime := some 2700
    tank := some ⟨[⟨some 2500, some 0, none⟩]⟩, calcVals := none }

theorem c10_zero_pressure_as_missing_witness :
    firstTank wRow10 = some ⟨some 2500, some 0, none⟩ ∧
      (extractDive wRow10).gasUsed = 0 :=
  ⟨rfl, c10_zero_pressure_as_missing wRow10 ⟨some 2500, some 0, none⟩ rfl (Or.inl rfl)⟩

/-! ## Trip Aggregator: calculate_trip_stats -/

/-- Gregorian leap year. -/
def isLeap (y : ℤ) : Bool :=
  (y % 4 == 0 && !(y % 100 == 0)) || y % 400 == 0

/-- Days in a month (1..12). -/
def daysInMonth (y : ℤ) (m : ℕ) : ℕ :=
  if m = 2 then (if isLeap y then 29 else 28)
  else if m = 4 ∨ m = 6 ∨ m = 9 ∨ m = 11 then 30
  else 31

/-- datetime.strptime(s, '%Y-%m-%d'): digits-digits-digits with a valid
month and day-of-month; None models the exception path. -/
def parseYMD (s : String) : Option (ℤ × ℕ × ℕ) :=
  match s.split (· == '-') with
  | [ys, ms, ds] =>
    match digitsToNat? ys.toList, digitsToNat? ms.toList, digitsToNat? ds.toList with
    | some y, some m, some d =>
      if 1 ≤ m ∧ m ≤ 12 ∧ 1 ≤ d ∧ d ≤ daysInMonth (y : ℤ) m then some ((y : ℤ), m, d)
      else none
    | _, _, _ => none
  | _ => none

/-- strftime month abbreviation %b. -/
def monthAbbr : ℕ → String
  | 1 => "Jan" | 2 => "Feb" | 3 => "Mar" | 4 => "Apr" | 5 => "May" | 6 => "Jun"
  | 7 => "Jul" | 8 => "Aug" | 9 => "Sep" | 10 => "Oct" | 11 => "Nov" | 12 => "Dec"
  | _ => ""

/-- strftime('%b %d').  Python raises on an unparsable date; that path is
unreachable for the dates this program builds and degrades to "". -/
def fmtMonthDay (s : String) : String :=
  match parseYMD s with
  | some (_, m, d) => monthAbbr m ++ " " ++ pad2 (d : ℤ)
  | none => ""

/-- strftime('%b %d, %Y'). -/
def fmtMonthDayYear (s : String) : String :=
  match parseYMD s with
  | some (y, m, d) => monthAbbr m ++ " " ++ pad2 (d : ℤ) ++ ", " ++ toString y
  | none => ""

/-- Stable insertion of one element: x goes after existing elements that
compare ≤ to it (matching Python's stable sort on equal keys). -/
def insertSorted {α : Type*} (le : α → α → Bool) (x : α) : List α → List α
  | [] => [x]
  | y :: ys => if le y x then y :: insertSorted le x ys else x :: y :: ys

/-- Stable sort (Python sorted / list.sort is stable). -/
def stableSort {α : Type*} (le : α → α → Bool) (l : List α) : List α :=
  l.foldl (fun acc x => insertSorted le x acc) []

/-- The per-location accumulator entry of calculate_trip_stats.  The list
of entries is insertion-ordered, like the Python dict 'locations'. -/
structure LocGroup where
  key : String
  gdives : List Dive
  gdates : List String
deriving DecidableEq, Repr

/-- The location key under which calculate_trip_stats groups a dive: an
empty location becomes 'Unknown' and the exact string 'Curaco' is
corrected to 'Curacao'. -/
def pyLocKey (d : Dive) : String :=
  let loc := if d.location = "" then "Unknown" else d.location
  if loc = "Curaco" then "Curacao" else loc

/-- One step of the grouping loop of calculate_trip_stats. -/
def addToLocations (acc : List LocGroup) (d : Dive) : List LocGroup :=
  let k := pyLocKey d
  let newDates := if d.date ≠ "" then [d.date] else []
  if acc.any (·.key == k) then
    acc.map (fun g =>
      if g.key == k then { g with gdives := g.gdives ++ [d], gdates := g.gdates ++ newDates }
      else g)
  else
    acc ++ [{ key := k, gdives := [d], gdates := newDates }]

/-- The 'locations' dict of calculate_trip_stats. -/
def buildLocations (dives : List Dive) : List LocGroup :=
  dives.foldl addToLocations []

/-- colors.get(loc, '#94a3b8') with the fixed color dict. -/
def tripColor (k : String) : String :=
  if k = "Bonaire" then "#3b82f6"
  else if k = "Cozumel" then "#22c55e"
  else if k = "Curacao" then "#f97316"
  else "#94a3b8"

/-- The trip record built from one location group; none when the group has
no dated dives (the 'continue' branch).  Python's max() on an empty list
would raise; a group with nonempty gdates always has a dive, so the 0
default is unreachable. -/
def mkTripOfGroup (g : LocGroup) : Option Trip :=
  if g.gdates = [] then none
  else
    let dates := stableSort (fun a b => decide (a ≤ b)) g.gdates
    let totalMin : ℤ := (g.gdives.map (·.durationMin)).sum
    let maxDepth : ℚ := match g.gdives.map (·.maxDepthM) with
      | [] => 0
      | x :: xs => xs.foldl max x
    let avgGas : ℚ :=
      if g.gdives ≠ [] then ((g.gdives.map (·.gasUsed)).sum : ℚ) / g.gdives.length else 0
    some { name := if g.key ≠ "Curacao" then g.key else "Curaçao"
           dates := fmtMonthDay (dates.headD "") ++ " - " ++ fmtMonthDayYear (dates.getLastD "")
           dives := g.gdives.length
           hours := pyRound1 ((totalMin : ℚ) / 60)
           maxDepth := maxDepth
           avgGas := pyRound avgGas
           color := tripColor g.key
           endDate := dates.getLastD "" }

/-- calculate_trip_stats: group, summarize, sort by last dive date. -/
def calculate_trip_stats (dives : List Dive) : List Trip :=
  stableSort (fun a b => decide (a.endDate ≤ b.endDate))
    ((buildLocations dives).filterMap mkTripOfGroup)

/-! ## Claim C3 -/

theorem mem_insertSorted {α : Type*} (le : α → α → Bool) (x a : α) (l : List α) :
    a ∈ insertSorted le x l ↔ a = x ∨ a ∈ l := by
  induction l with
  | nil => simp [insertSorted]
  | cons y ys ih =>
    by_cases h : le y x
    · simp [insertSorted, h, ih]
      tauto
    · simp [insertSorted, h, ih]

theorem mem_stableSort {α : Type*} (le : α → α → Bool) (l : List α) (a : α) :
    a ∈ stableSort le l ↔ a ∈ l := by
  suffices h : ∀ acc : List α, a ∈ l.foldl (fun acc x => insertSorted le x acc) acc ↔
      a ∈ acc ∨ a ∈ l by
    simpa [stableSort] using h []
  induction l with
  | nil => simp
  | cons y ys ih =>
    intro acc
    rw [List.foldl_cons, ih, mem_insertSorted]
    simp
    tauto

/-- The group-update closure inside addToLocations. -/
def updGroup (d : Dive) (g : LocGroup) : LocGroup :=
  if g.key == pyLocKey d then
    { g with gdives := g.gdives ++ [d], gdates := g.gdates ++ (if d.date ≠ "" then [d.date] else []) }
  else g

theorem addToLocations_eq (acc : List LocGroup) (d : Dive) :
    addToLocations acc d =
      if acc.any (·.key == pyLocKey d) then acc.map (updGroup d)
      else acc ++ [{ key := pyLocKey d, gdives := [d], gdates := if d.date ≠ "" then [d.date] else [] }] := by
  unfold addToLocations updGroup
  rfl

theorem updGroup_key (d : Dive) (g : LocGroup) : (updGroup d g).key = g.key := by
  unfold updGroup; split <;> rfl

theorem addLoop_invariant (rest : List Dive) : ∀ (processed : List Dive) (acc : List LocGroup),
    (∀ g ∈ acc, g.gdives = processed.filter (fun d => pyLocKey d == g.key)) →
    (∀ d ∈ processed, acc.any (·.key == pyLocKey d)) →
    ∀ g ∈ rest.foldl addToLocations acc,
      g.gdives = (processed ++ rest).filter (fun d => pyLocKey d == g.key) := by
  induction rest with
  | nil =>
    intro processed acc hinv _ g hg
    simpa using hinv g hg
  | cons d rest ih =>
    intro processed acc hinv hkeys g hg
    rw [List.foldl_cons] at hg
    have hassoc : processed ++ d :: rest = (processed ++ [d]) ++ rest := by simp
    rw [hassoc]
    by_cases hany : acc.any (·.key == pyLocKey d)
    · rw [addToLocations_eq, if_pos hany] at hg
      refine ih (processed ++ [d]) (acc.map (updGroup d)) ?_ ?_ g hg
      · intro g' hg'
        obtain ⟨g0, hg0, hup⟩ := List.mem_map.mp hg'
        subst hup
        rw [updGroup_key]
        unfold updGroup
        by_cases hk : (g0.key == pyLocKey d) = true
        · rw [if_pos hk]
          show g0.gdives ++ [d] = _
          have hkey : (pyLocKey d == g0.key) = true := by
            rw [beq_iff_eq] at hk ⊢; exact hk.symm
          rw [List.filter_append, hinv g0 hg0]
          simp [hkey]
        · rw [if_neg hk]
          have hkey : (pyLocKey d == g0.key) = false := by
            rw [beq_eq_false_iff_ne]
            intro h; exact hk (by rw [beq_iff_eq]; exact h.symm)
          rw [List.filter_append, hinv g0 hg0]
          simp [hkey]
      · intro d' hd'
        rw [List.any_eq_true]
        rcases List.mem_append.mp hd' with h | h
        · have := hkeys d' h
          rw [List.any_eq_true] at this
          obtain ⟨g0, hg0, hk0⟩ := this
          exact ⟨updGroup d g0, List.mem_map.mpr ⟨g0, hg0, rfl⟩, by rw [updGroup_key]; exact hk0⟩
        · have hd'' : d' = d := by simpa using h
          subst hd''
          rw [List.any_eq_true] at hany
          obtain ⟨g0, hg0, hk0⟩ := hany
          exact ⟨updGroup d' g0, List.mem_map.mpr ⟨g0, hg0, rfl⟩, by rw [updGroup_key]; exact hk0⟩
    · rw [addToLocations_eq, if_neg hany] at hg
      refine ih (processed ++ [d])
        (acc ++ [{ key := pyLocKey d, gdives := [d], gdates := if d.date ≠ "" then [d.date] else [] }])
        ?_ ?_ g hg
      · intro g' hg'
        rcases List.mem_append.mp hg' with h | h
        · have hnk : (pyLocKey d == g'.key) = false := by
            rw [beq_eq_false_iff_ne]
            intro hk
            apply hany
            rw [List.any_eq_true]
            exact ⟨g', h, by rw [beq_iff_eq]; exact hk.symm⟩
          rw [List.filter_append, hinv g' h]
          simp [hnk]
        · have hg'' : g' = { key := pyLocKey d, gdives := [d], gdates := if d.date ≠ "" then [d.date] else [] } := by
            simpa using h
          subst hg''
          have hnil : processed.filter (fun d' => pyLocKey d' == pyLocKey d) = [] := by
            rw [List.filter_eq_nil_iff]
            intro d' hd' hk
            apply hany
            have := hkeys d' hd'
            rw [List.any_eq_true] at this ⊢
            obtain ⟨g0, hg0, hk0⟩ := this
            refine ⟨g0, hg0, ?_⟩
            have e1 : g0.key = pyLocKey d' := by simpa using hk0
            have e2 : pyLocKey d' = pyLocKey d := by simpa using hk
            rw [beq_iff_eq, e1, e2]
          show [d] = (processed ++ [d]).filter (fun d' => pyLocKey d' == pyLocKey d)
          rw [List.filter_append, hnil]
          simp
      · intro d' hd'
        rw [List.any_eq_true]
        rcases List.mem_append.mp hd' with h | h
        · have := hkeys d' h
          rw [List.any_eq_true] at this
          obtain ⟨g0, hg0, hk0⟩ := this
          exact ⟨g0, List.mem_append_left _ hg0, hk0⟩
        · have hd'' : d' = d := by simpa using h
          subst hd''
          exact ⟨{ key := pyLocKey d', gdives := [d'], gdates := if d'.date ≠ "" then [d'.date] else [] },
            by simp, by simp⟩

theorem buildLocations_invariant (dives : List Dive) (g : LocGroup)
    (hg : g ∈ buildLocations dives) :
    g.gdives = dives.filter (fun d => pyLocKey d == g.key) := by
  have := addLoop_invariant dives [] [] (by simp) (by simp) g hg
  simpa using this

/-- C3, amended: after any aggregation call, every produced Trip counts
exactly the input dives whose location key (empty mapped to 'Unknown', the
exact string 'Curaco' mapped to 'Curacao' -- the code's actual
normalization, with no case folding or trimming) equals the trip's
grouping key, whose display form is the trip's name. -/
theorem c3_trip_dive_count (dives : List Dive) (t : Trip)
    (ht : t ∈ calculate_trip_stats dives) :
    ∃ k, t.name = (if k ≠ "Curacao" then k else "Curaçao") ∧
      t.dives = (dives.filter (fun d => pyLocKey d == k)).length := by
  rw [calculate_trip_stats, mem_stableSort, List.mem_filterMap] at ht
  obtain ⟨g, hg, hmk⟩ := ht
  unfold mkTripOfGroup at hmk
  by_cases hd : g.gdates = []
  · rw [if_pos hd] at hmk; cases hmk
  · rw [if_neg hd] at hmk
    have ht' := Option.some.inj hmk
    refine ⟨g.key, ?_, ?_⟩
    · rw [← ht']
    · rw [← ht']
      show g.gdives.length = _
      rw [buildLocations_invariant dives g hg]

/-- The two dives of the C3 counterexample: identical locations up to
letter case, so the spec's case-folded normalization identifies them while
the code groups them separately. -/
def c3dive1 : Dive :=
  { number := 1, date := "2024-01-01", time := "09:00", endTime := "09:50"
    location := "Bonaire", site := "", maxDepthM := 18, maxDepthFt := 59
    durationMin := 50, durationSec := 3000, startPSI := 3000, endPSI := 1000
    gasUsed := 2000, o2Percent := 21, avgTempC := 27, avgDepthM := 12, endGF99 := 40 }

def c3dive2 : Dive :=
  { c3dive1 with number := 2, date := "2024-01-02", location := "bonaire" }

/-- Modelled from the spec (the normalization named by claim C3):
case-folded, trimmed, known misspelling/diacritic variants merged
(reusing the dashboard's own pure normalizer normLoc for that folding),
with an empty/missing label mapped to the canonical Unknown key. -/
def specNormalizeLoc (s : String) : String :=
  let t := normLoc s
  if t = "" then normLoc "Unknown" else t

/-- C3, counterexample: with input dives at 'Bonaire' and 'bonaire',
calculate_trip_stats produces a trip whose dive count (1) differs from the
number of input dives whose spec-normalized location equals the
spec-normalized trip name (2). -/
theorem c3_counterexample :
    ¬ ∀ t ∈ calculate_trip_stats [c3dive1, c3dive2],
        t.dives = ([c3dive1, c3dive2].filter
          (fun d => specNormalizeLoc d.location == specNormalizeLoc t.name)).length := by
  with_unfolding_all decide

set_option maxRecDepth 100000 in
/-- Witness for the amended C3 theorem at a concrete input. -/
theorem c3_trip_dive_count_witness :
    ∃ t, t ∈ calculate_trip_stats [c3dive1] ∧
      ∃ k, t.name = (if k ≠ "Curacao" then k else "Curaçao") ∧
        t.dives = ([c3dive1].filter (fun d => pyLocKey d == k)).length := by
  refine ⟨(calculate_trip_stats [c3dive1]).headD default, ?_, ?_⟩
  · with_unfolding_all decide
  · exact c3_trip_dive_count [c3dive1] _ (by with_unfolding_all decide)

/-! ## Dataset Merge Engine: mergeNewDives -/

/-- The dedup identity key of a dive: d.number + '|' + d.date (JavaScript
stringifies the number into the concatenation). -/
def diveKey (d : Dive) : String := toString d.number ++ "|" ++ d.date

/-- State of the newDives loop: the dive list being pushed to, the
existingKeys set (a set of strings, modelled by its membership list), and
the added list. -/
structure MergeDivesState where
  dives : List Dive
  keys : List String
  added : List Dive
deriving Repr

/-- One iteration of newDives.forEach in mergeNewDives. -/
def mergeDivesStep (st : MergeDivesState) (d : Dive) : MergeDivesState :=
  if st.keys.contains (diveKey d) then st
  else { dives := st.dives ++ [d], keys := st.keys ++ [diveKey d], added := st.added ++ [d] }

/-- The fixed tripColors palette. -/
def tripPalette : List String :=
  ["#3b82f6", "#22c55e", "#f97316", "#a855f7", "#ef4444",
   "#eab308", "#ec4899", "#14b8a6", "#f59e0b", "#6366f1"]

/-- State of the newTrips loop: the trip list being pushed to and the
existingLocs set. -/
structure MergeTripsState where
  trips : List Trip
  locs : List String
deriving Repr

/-- The color fixup on an appended trip: assign the next palette slot when
the incoming color is falsy ('' models undefined) or the default
placeholder '#94a3b8'. -/
def assignTripColor (st : MergeTripsState) (t : Trip) : Trip :=
  if t.color = "" ∨ t.color = "#94a3b8"
  then { t with color := tripPalette.getD (st.trips.length % tripPalette.length) "" }
  else t

/-- One iteration of newTrips.forEach in mergeNewDives: skip known
normalized locations, otherwise fix the color up and push. -/
def mergeTripsStep (st : MergeTripsState) (t : Trip) : MergeTripsState :=
  if st.locs.contains (normLoc t.name) then st
  else { trips := st.trips ++ [assignTripColor st t], locs := st.locs ++ [normLoc t.name] }

theorem assignTripColor_name (st : MergeTripsState) (t : Trip) :
    (assignTripColor st t).name = t.name := by
  unfold assignTripColor; split <;> rfl

/-- The data part of mergeNewDives' result (the returned count plus the
mutated dives / tripsData collections). -/
structure MergeResult where
  dives : List Dive
  trips : List Trip
  count : ℕ
deriving DecidableEq, Repr

/-- mergeNewDives: dedup-append incoming dives by (number, date) key; when
no dive was added, return 0 before any trip merging; otherwise append the
incoming trips whose normalized location is unseen and return the added
count.  The location-filter refresh and render calls only touch the DOM. -/
def mergeNewDives (dives : List Dive) (tripsData : List Trip)
    (newDives : List Dive) (newTrips : List Trip) : MergeResult :=
  let st := newDives.foldl mergeDivesStep ⟨dives, dives.map diveKey, []⟩
  if st.added.length = 0 then ⟨st.dives, tripsData, 0⟩
  else
    let ts := newTrips.foldl mergeTripsStep ⟨tripsData, tripsData.map (fun t => normLoc t.name)⟩
    ⟨st.dives, ts.trips, st.added.length⟩

/-! ## Claim C1 -/

theorem mergeDives_all_dup (nds : List Dive) : ∀ (st : MergeDivesState),
    (∀ d ∈ nds, st.keys.contains (diveKey d)) →
    nds.foldl mergeDivesStep st = st := by
  induction nds with
  | nil => intro st _; rfl
  | cons d nds ih =>
    intro st h
    rw [List.foldl_cons]
    have hd : mergeDivesStep st d = st := by
      unfold mergeDivesStep
      rw [if_pos (h d (by simp))]
    rw [hd]
    exact ih st (fun d' hd' => h d' (by simp [hd']))

/-- C1: merging a dataset's own dive list and trip list back into itself
adds zero new dives and zero new trips, leaves both collections unchanged,
and returns 0 as the count of newly added dives. -/
theorem c1_merge_self (dives : List Dive) (trips : List Trip) :
    mergeNewDives dives trips dives trips = ⟨dives, trips, 0⟩ := by
  unfold mergeNewDives
  have hall : ∀ d ∈ dives, (MergeDivesState.keys ⟨dives, dives.map diveKey, []⟩).contains (diveKey d) := by
    intro d hd
    have : diveKey d ∈ dives.map diveKey := List.mem_map_of_mem _ hd
    simpa using this
  rw [mergeDives_all_dup dives _ hall]
  rfl

/-! ## Claim C8 -/

theorem mergeDives_added_extends (nds : List Dive) : ∀ (st : MergeDivesState),
    ∃ extra, (nds.foldl mergeDivesStep st).added = st.added ++ extra := by
  induction nds with
  | nil => intro st; exact ⟨[], by simp⟩
  | cons d nds ih =>
    intro st
    rw [List.foldl_cons]
    obtain ⟨extra, hx⟩ := ih (mergeDivesStep st d)
    unfold mergeDivesStep at hx ⊢
    by_cases hc : st.keys.contains (diveKey d) = true
    · rw [if_pos hc] at hx ⊢
      exact ⟨extra, hx⟩
    · rw [if_neg hc] at hx ⊢
      exact ⟨[d] ++ extra, by simpa using hx⟩

theorem mergeDives_added_ne_nil (nds : List Dive) : ∀ (st : MergeDivesState),
    ((∃ d ∈ nds, ¬ st.keys.contains (diveKey d)) ∨ st.added ≠ []) →
    (nds.foldl mergeDivesStep st).added ≠ [] := by
  induction nds with
  | nil =>
    intro st h
    rcases h with ⟨d, hd, _⟩ | h
    · cases hd
    · exact h
  | cons d nds ih =>
    intro st h
    rw [List.foldl_cons]
    apply ih
    by_cases hc : st.keys.contains (diveKey d) = true
    · have hstep : mergeDivesStep st d = st := by
        unfold mergeDivesStep; rw [if_pos hc]
      rw [hstep]
      rcases h with ⟨d', hd', hk'⟩ | h
      · rcases List.mem_cons.mp hd' with rfl | hmem
        · exact absurd hc hk'
        · exact Or.inl ⟨d', hmem, hk'⟩
      · exact Or.inr h
    · have hstep : (mergeDivesStep st d).added = st.added ++ [d] := by
        unfold mergeDivesStep; rw [if_neg hc]
      refine Or.inr ?_
      rw [hstep]
      simp

theorem mergeTripsStep_trips_extends (st : MergeTripsState) (t : Trip) :
    ∃ e, (mergeTripsStep st t).trips = st.trips ++ e := by
  unfold mergeTripsStep
  by_cases hc : st.locs.contains (normLoc t.name) = true
  · rw [if_pos hc]; exact ⟨[], by simp⟩
  · rw [if_neg hc]; exact ⟨_, rfl⟩

theorem mergeTrips_trips_extends (nts : List Trip) : ∀ (st : MergeTripsState),
    ∃ extra, (nts.foldl mergeTripsStep st).trips = st.trips ++ extra := by
  induction nts with
  | nil => intro st; exact ⟨[], by simp⟩
  | cons t nts ih =>
    intro st
    rw [List.foldl_cons]
    obtain ⟨e1, h1⟩ := mergeTripsStep_trips_extends st t
    obtain ⟨e2, h2⟩ := ih (mergeTripsStep st t)
    exact ⟨e1 ++ e2, by rw [h2, h1, List.append_assoc]⟩

theorem assignTripColor_fields (st : MergeTripsState) (t : Trip) :
    (assignTripColor st t).name = t.name ∧ (assignTripColor st t).dates = t.dates ∧
    (assignTripColor st t).dives = t.dives ∧ (assignTripColor st t).hours = t.hours ∧
    (assignTripColor st t).maxDepth = t.maxDepth ∧ (assignTripColor st t).avgGas = t.avgGas ∧
    (assignTripColor st t).endDate = t.endDate := by
  unfold assignTripColor
  split <;> exact ⟨rfl, rfl, rfl, rfl, rfl, rfl, rfl⟩

theorem assignTripColor_color (st : MergeTripsState) (t : Trip) :
    if t.color = "" ∨ t.color = "#94a3b8" then (assignTripColor st t).color ∈ tripPalette
    else (assignTripColor st t).color = t.color := by
  unfold assignTripColor
  by_cases h : t.color = "" ∨ t.color = "#94a3b8"
  · rw [if_pos h, if_pos h]
    show tripPalette.getD (st.trips.length % tripPalette.length) "" ∈ tripPalette
    have hlt : st.trips.length % tripPalette.length < tripPalette.length :=
      Nat.mod_lt _ (by decide)
    rw [List.getD_eq_getElem _ _ hlt]
    exact List.getElem_mem hlt
  · rw [if_neg h, if_neg h]

/-- The first batch trip carrying a fresh normalized-location key is
appended (with the color fixup applied at the state it is pushed in). -/
theorem mergeTrips_first_new (l1 : List Trip) : ∀ (st : MergeTripsState) (t : Trip) (l2 : List Trip),
    (∀ u ∈ l1, normLoc u.name ≠ normLoc t.name) →
    normLoc t.name ∉ st.locs →
    ∃ st1 : MergeTripsState,
      assignTripColor st1 t ∈ ((l1 ++ t :: l2).foldl mergeTripsStep st).trips := by
  induction l1 with
  | nil =>
    intro st t l2 _ hnot
    refine ⟨st, ?_⟩
    rw [List.nil_append, List.foldl_cons]
    have hc : ¬ st.locs.contains (normLoc t.name) = true := by
      intro hc
      apply hnot
      rw [List.contains_eq_any_beq, List.any_eq_true] at hc
      obtain ⟨x, hx, he⟩ := hc
      rwa [show normLoc t.name = x from by simpa using beq_iff_eq.mp he]
    have hstep : mergeTripsStep st t
        = ⟨st.trips ++ [assignTripColor st t], st.locs ++ [normLoc t.name]⟩ := by
      unfold mergeTripsStep
      rw [if_neg hc]
    rw [hstep]
    obtain ⟨extra, hx⟩ := mergeTrips_trips_extends l2 _
    rw [hx]
    exact List.mem_append_left _ (List.mem_append_right _ (by simp))
  | cons u l1 ih =>
    intro st t l2 hfirst hnot
    rw [List.cons_append, List.foldl_cons]
    apply ih (mergeTripsStep st u) t l2 (fun v hv => hfirst v (by simp [hv]))
    unfold mergeTripsStep
    by_cases hc : st.locs.contains (normLoc u.name) = true
    · rw [if_pos hc]
      exact hnot
    · rw [if_neg hc]
      intro hmem
      rcases List.mem_append.mp hmem with h | h
      · exact hnot h
      · have he : normLoc t.name = normLoc u.name := by simpa using h
        exact hfirst u (by simp) he.symm

/-- Agreement of two trips on every field except color. -/
def sameTripExceptColor (a b : Trip) : Prop :=
  a.name = b.name ∧ a.dates = b.dates ∧ a.dives = b.dives ∧ a.hours = b.hours ∧
  a.maxDepth = b.maxDepth ∧ a.avgGas = b.avgGas ∧ a.endDate = b.endDate

/-- C8, amended: provided the incoming batch contributes at least one new
dive (when zero dives are added, mergeNewDives returns 0 early and skips
trip merging entirely), every incoming trip whose normalized-location key
is absent from the current trips and from the earlier trips of its own
batch is appended unchanged, except that a color from the fixed palette is
assigned when the incoming trip's color is missing or the default
placeholder '#94a3b8'. -/
theorem c8_new_trip_appended (dives : List Dive) (tripsData : List Trip)
    (newDives : List Dive) (l1 l2 : List Trip) (t : Trip)
    (hnew : ∃ d ∈ newDives, ¬ (dives.map diveKey).contains (diveKey d))
    (hfirst : ∀ u ∈ l1, normLoc u.name ≠ normLoc t.name)
    (habsent : ∀ t0 ∈ tripsData, normLoc t0.name ≠ normLoc t.name) :
    ∃ t' ∈ (mergeNewDives dives tripsData newDives (l1 ++ t :: l2)).trips,
      sameTripExceptColor t' t ∧
        (if t.color = "" ∨ t.color = "#94a3b8" then t'.color ∈ tripPalette
         else t'.color = t.color) := by
  unfold mergeNewDives
  have hne : (newDives.foldl mergeDivesStep ⟨dives, dives.map diveKey, []⟩).added ≠ [] :=
    mergeDives_added_ne_nil newDives _ (Or.inl hnew)
  rw [if_neg (by simpa using hne)]
  obtain ⟨st1, hmem⟩ := mergeTrips_first_new l1
    ⟨tripsData, tripsData.map (fun u => normLoc u.name)⟩ t l2 hfirst
    (by
      intro hmem
      rw [List.mem_map] at hmem
      obtain ⟨t0, ht0, he⟩ := hmem
      exact habsent t0 ht0 he)
  exact ⟨assignTripColor st1 t, hmem, assignTripColor_fields st1 t, assignTripColor_color st1 t⟩

/-- The concrete dive and trip of the C8 scenario. -/
def c8dive : Dive :=
  { number := 11, date := "2024-01-05", time := "08:30", endTime := "09:20"
    location := "Roatan", site := "", maxDepthM := 20, maxDepthFt := 66
    durationMin := 50, durationSec := 3000, startPSI := 3000, endPSI := 900
    gasUsed := 2100, o2Percent := 21, avgTempC := 27, avgDepthM := 12, endGF99 := 40 }

def c8trip : Trip :=
  { name := "Roatan", dates := "Jan 05 - Jan 08, 2024", dives := 3
    hours := 2.5, maxDepth := 20, avgGas := 1500, color := "", endDate := "2024-01-08" }

/-- C8, counterexample: the incoming trip's normalized-location key is
absent from the (empty) current trip list, yet because the incoming dive
batch contributes zero new dives, mergeNewDives returns 0 early and the
trip is not appended: the merged trip list stays empty. -/
theorem c8_counterexample :
    (mergeNewDives [c8dive] [] [c8dive] [c8trip]).trips = [] ∧
      (mergeNewDives [c8dive] [] [c8dive] [c8trip]).count = 0 := by
  with_unfolding_all decide

/-- Witness for the amended C8 theorem at a concrete input. -/
theorem c8_new_trip_appended_witness :
    (∃ d ∈ [c8dive], ¬ (List.map diveKey []).contains (diveKey d)) ∧
      ∃ t' ∈ (mergeNewDives [] [] [c8dive] ([] ++ c8trip :: [])).trips,
        sameTripExceptColor t' c8trip ∧
          (if c8trip.color = "" ∨ c8trip.color = "#94a3b8" then t'.color ∈ tripPalette
           else t'.color = c8trip.color) :=
  ⟨⟨c8dive, by simp, by simp⟩,
    c8_new_trip_appended [] [] [c8dive] [] [] c8trip
      ⟨c8dive, by simp, by simp⟩ (by simp) (by simp)⟩

/-! ## Photo-Temporal Matcher: parseLocalMs, clearDivePhotosForTrip,
buildDivePhotoMap -/

/-- One media descriptor: name and lastModified milliseconds.  0 models a
missing/falsy timestamp (the '!ts' check). -/
structure MediaFile where
  name : String
  lastModified : ℤ
deriving DecidableEq, Repr

/-- Days from 1970-01-01 of a Gregorian date (standard era-based civil
calendar algorithm; fdiv is floor division). -/
def daysFromCivil (y m d : ℤ) : ℤ :=
  let y' := if m ≤ 2 then y - 1 else y
  let era := y'.fdiv 400
  let yoe := y' - era * 400
  let mp := if 2 < m then m - 3 else m + 9
  let doy := (153 * mp + 2).fdiv 5 + d - 1
  let doe := yoe * 365 + yoe.fdiv 4 - yoe.fdiv 100 + doy
  era * 146097 + doe - 719468

/-- new Date(y, monthIndex, d, h, mi).getTime(): a year 0..99 maps to
1900+y, an out-of-range month index rolls the year over, and day/hour/
minute are plain offsets.  The model fixes the local-time offset at zero:
dive starts and photo timestamps live on the same local clock here, so
every comparison between them is offset-invariant. -/
def msOfLocal (y m0 d h mi : ℤ) : ℤ :=
  let yAdj := if 0 ≤ y ∧ y ≤ 99 then y + 1900 else y
  let ym := yAdj * 12 + m0
  (daysFromCivil (ym.fdiv 12) (ym.emod 12 + 1) 1 + (d - 1)) * 86400000
    + h * 3600000 + mi * 60000

/-- JavaScript Number(s) on the component shapes this program produces:
whitespace-trimmed optional-sign digit strings (Number('') is 0); anything
else is NaN, modelled by none. -/
def jsNumInt? (s : String) : Option ℤ :=
  match trimChars s.toList with
  | [] => some 0
  | '-' :: rest => (digitsToNat? rest).map (fun n => -(n : ℤ))
  | '+' :: rest => (digitsToNat? rest).map (fun n => (n : ℤ))
  | l => (digitsToNat? l).map (fun n => (n : ℤ))

/-- parseLocalMs: parse 'YYYY-MM-DD' + 'HH:mm' as local time.  none models
a NaN .getTime() (Invalid Date); indexing past the end of a split result
is undefined and +undefined is NaN. -/
def parseLocalMs (dateStr timeStr : String) : Option ℤ :=
  let p := dateStr.split (· == '-')
  let t := timeStr.split (· == ':')
  match (p.get? 0).bind jsNumInt?, (p.get? 1).bind jsNumInt?, (p.get? 2).bind jsNumInt?,
      (t.get? 0).bind jsNumInt?, (t.get? 1).bind jsNumInt? with
  | some y, some m, some d, some h, some mi => some (msOfLocal y (m - 1) d h mi)
  | _, _, _, _, _ => none

/-- The divePhotos map (dive number → pushed media list): a JavaScript
object keyed by number; a missing key is modelled as []. -/
def DivePhotos := ℤ → List MediaFile

/-- tripsData[tripIdx] ? tripsData[tripIdx].name : '' -/
def tripNameAt (tripsData : List Trip) (tripIdx : ℕ) : String :=
  match tripsData.get? tripIdx with
  | some t => t.name
  | none => ""

/-- One iteration of the delete loop of clearDivePhotosForTrip. -/
def clearStep (tripLoc : String) (acc : DivePhotos) (d : Dive) : DivePhotos :=
  if normLoc d.location == tripLoc then fun k => if k = d.number then [] else acc k
  else acc

/-- clearDivePhotosForTrip: delete the divePhotos entry of every dive whose
normalized location matches the trip's. -/
def clearDivePhotosForTrip (tripIdx : ℕ) (tripsData : List Trip) (dives : List Dive)
    (m : DivePhotos) : DivePhotos :=
  dives.foldl (clearStep (normLoc (tripNameAt tripsData tripIdx))) m

/-- Buffer: 30 minutes in milliseconds. -/
def BUFFER_MS : ℤ := 30 * 60 * 1000

/-- Does a dive's buffered wall-clock window contain the timestamp?  The
'continue' guards: empty date or time, or an unparsable (NaN) start. -/
def diveWindowMatch (d : Dive) (ts : ℤ) : Bool :=
  if d.date = "" ∨ d.time = "" then false
  else
    match parseLocalMs d.date d.time with
    | none => false
    | some start =>
      decide (start - BUFFER_MS ≤ ts) && decide (ts ≤ start + d.durationSec * 1000 + BUFFER_MS)

/-- One iteration of the files.forEach loop of buildDivePhotoMap: a file
with a falsy timestamp is skipped; otherwise it is pushed onto the first
dive (in collection order) whose buffered window contains it. -/
def assignStep (tripDives : List Dive) (m : DivePhotos) (f : MediaFile) : DivePhotos :=
  if f.lastModified = 0 then m
  else
    match tripDives.find? (fun d => diveWindowMatch d f.lastModified) with
    | some d => fun k => if k = d.number then m k ++ [f] else m k
    | none => m

/-- buildDivePhotoMap: clear the trip's previous mappings, then re-assign
each timestamped file of the trip to the first matching dive at the trip's
normalized location. -/
def buildDivePhotoMap (tripIdx : ℕ) (tripsData : List Trip) (dives : List Dive)
    (files : List MediaFile) (m : DivePhotos) : DivePhotos :=
  let m0 := clearDivePhotosForTrip tripIdx tripsData dives m
  if files = [] then m0
  else
    let tripLoc := normLoc (tripNameAt tripsData tripIdx)
    let tripDives := dives.filter (fun d => normLoc d.location == tripLoc)
    if tripDives = [] then m0
    else files.foldl (assignStep tripDives) m0

/-! ## Claims C2 and C5 -/

theorem clearLoop_apply (tripLoc : String) (ds : List Dive) : ∀ (m : DivePhotos) (k : ℤ),
    (ds.foldl (clearStep tripLoc) m) k =
      if ds.any (fun d => normLoc d.location == tripLoc && d.number == k) then [] else m k := by
  induction ds with
  | nil => intro m k; simp
  | cons d ds ih =>
    intro m k
    rw [List.foldl_cons, ih]
    by_cases hds : ds.any (fun d => normLoc d.location == tripLoc && d.number == k) = true
    · rw [if_pos hds, if_pos (by simp [hds])]
    · rw [if_neg hds]
      by_cases hloc : (normLoc d.location == tripLoc) = true
      · by_cases hnum : k = d.number
        · rw [if_pos (by simp [List.any_cons, hloc, hnum.symm])]
          unfold clearStep
          rw [if_pos hloc, if_pos hnum]
        · rw [if_neg (by
            simp only [List.any_cons, Bool.or_eq_true, Bool.and_eq_true]
            push_neg
            refine ⟨fun _ => ?_, hds⟩
            simpa using fun h => hnum h.symm)]
          unfold clearStep
          rw [if_pos hloc, if_neg hnum]
      · rw [if_neg (by
          simp only [List.any_cons, Bool.or_eq_true, Bool.and_eq_true]
          push_neg
          exact ⟨fun h => absurd h hloc, hds⟩)]
        unfold clearStep
        rw [if_neg hloc]

theorem clear_idem (tripIdx : ℕ) (tripsData : List Trip) (dives : List Dive)
    (m : DivePhotos) (k : ℤ) :
    clearDivePhotosForTrip tripIdx tripsData dives (clearDivePhotosForTrip tripIdx tripsData dives m) k
      = clearDivePhotosForTrip tripIdx tripsData dives m k := by
  unfold clearDivePhotosForTrip
  rw [clearLoop_apply, clearLoop_apply]
  by_cases h : (dives.any
      fun d => normLoc d.location == normLoc (tripNameAt tripsData tripIdx) && d.number == k) = true
  · rw [if_pos h, if_pos h]
  · rw [if_neg h, if_neg h]

theorem assignLoop_other (td : List Dive) (fs : List MediaFile) : ∀ (m : DivePhotos) (k : ℤ),
    k ∉ td.map (·.number) → (fs.foldl (assignStep td) m) k = m k := by
  induction fs with
  | nil => intro m k _; rfl
  | cons f fs ih =>
    intro m k hk
    rw [List.foldl_cons, ih _ k hk]
    unfold assignStep
    by_cases hts : f.lastModified = 0
    · rw [if_pos hts]
    · rw [if_neg hts]
      cases hfind : td.find? (fun d => diveWindowMatch d f.lastModified) with
      | none => rfl
      | some d =>
        have hd : d ∈ td := List.mem_of_find?_eq_some hfind
        have : k ≠ d.number := by
          intro he
          exact hk (he ▸ List.mem_map_of_mem (·.number) hd)
        simp only []
        rw [if_neg this]

/-- clear after assign over cleared state gives back the cleared state:
the assignment loop touches only keys of dives at the trip's location,
which the clear loop deletes. -/
theorem clear_assign_clear (tripIdx : ℕ) (tripsData : List Trip) (dives : List Dive)
    (fs : List MediaFile) (m : DivePhotos) (k : ℤ) :
    clearDivePhotosForTrip tripIdx tripsData dives
      (fs.foldl (assignStep (dives.filter
        (fun d => normLoc d.location == normLoc (tripNameAt tripsData tripIdx))))
        (clearDivePhotosForTrip tripIdx tripsData dives m)) k
      = clearDivePhotosForTrip tripIdx tripsData dives m k := by
  unfold clearDivePhotosForTrip
  rw [clearLoop_apply, clearLoop_apply]
  by_cases hc : dives.any
      (fun d => normLoc d.location == normLoc (tripNameAt tripsData tripIdx) && d.number == k) = true
  · rw [if_pos hc, if_pos hc]
  · rw [if_neg hc, if_neg hc]
    have hk : k ∉ (dives.filter
        (fun d => normLoc d.location == normLoc (tripNameAt tripsData tripIdx))).map (·.number) := by
      intro hmem
      apply hc
      rw [List.any_eq_true]
      obtain ⟨d, hd, he⟩ := List.mem_map.mp hmem
      have hd' := List.mem_filter.mp hd
      exact ⟨d, hd'.1, by simp [hd'.2, he]⟩
    rw [assignLoop_other _ _ _ _ hk]
    rw [clearLoop_apply, if_neg hc]

/-- C5: running the Photo-Temporal Matcher twice for a trip on the same
dive collection and media set yields identical dive-number → media-list
mappings: the matcher clears the trip's prior assignments before
rebuilding, so repeated runs never accumulate stale entries. -/
theorem c5_matcher_idempotent (tripIdx : ℕ) (tripsData : List Trip) (dives : List Dive)
    (files : List MediaFile) (m : DivePhotos) :
    buildDivePhotoMap tripIdx tripsData dives files
        (buildDivePhotoMap tripIdx tripsData dives files m)
      = buildDivePhotoMap tripIdx tripsData dives files m := by
  funext k
  unfold buildDivePhotoMap
  by_cases hf : files = []
  · rw [if_pos hf, if_pos hf]
    exact clear_idem _ _ _ _ _
  · rw [if_neg hf, if_neg hf]
    by_cases ht : dives.filter
        (fun d => normLoc d.location == normLoc (tripNameAt tripsData tripIdx)) = []
    · rw [if_pos ht, if_pos ht]
      exact clear_idem _ _ _ _ _
    · rw [if_neg ht, if_neg ht]
      have hcac : ∀ k', clearDivePhotosForTrip tripIdx tripsData dives
          (files.foldl (assignStep (dives.filter
            (fun d => normLoc d.location == normLoc (tripNameAt tripsData tripIdx))))
            (clearDivePhotosForTrip tripIdx tripsData dives m)) k'
          = clearDivePhotosForTrip tripIdx tripsData dives m k' :=
        fun k' => clear_assign_clear tripIdx tripsData dives files m k'
      have : clearDivePhotosForTrip tripIdx tripsData dives
          (files.foldl (assignStep (dives.filter
            (fun d => normLoc d.location == normLoc (tripNameAt tripsData tripIdx))))
            (clearDivePhotosForTrip tripIdx tripsData dives m))
          = clearDivePhotosForTrip tripIdx tripsData dives m := funext hcac
      rw [this]

/-- The C2 scenario: the only dive at the trip's location. -/
def c2dive : Dive :=
  { number := 5, date := "2024-03-10", time := "09:00", endTime := "09:50"
    location := "Cozumel", site := "", maxDepthM := 18, maxDepthFt := 59
    durationMin := 50, durationSec := 3000, startPSI := 3000, endPSI := 1200
    gasUsed := 1800, o2Percent := 21, avgTempC := 27, avgDepthM := 12, endGF99 := 40 }

def c2trip : Trip :=
  { name := "Cozumel", dates := "Mar 10 - Mar 10, 2024", dives := 1
    hours := 0.8, maxDepth := 18, avgGas := 1800, color := "#22c55e", endDate := "2024-03-10" }

/-- A photo taken at 08:45 local time on the dive's day. -/
def c2photo0845 : MediaFile := ⟨"IMG_0845.jpg", msOfLocal 2024 2 10 8 45⟩

/-- A photo taken at 08:25 local time on the dive's day. -/
def c2photo0825 : MediaFile := ⟨"IMG_0825.jpg", msOfLocal 2024 2 10 8 25⟩

/-- The buffered-window checks of the C2 scenario: 08:45 is inside the
30-minute pre-buffer of the 09:00 start, 08:25 is outside it. -/
theorem c2match845 : diveWindowMatch c2dive c2photo0845.lastModified = true := by
  with_unfolding_all decide

theorem c2match825 : diveWindowMatch c2dive c2photo0825.lastModified = false := by
  with_unfolding_all decide

/-- C2: with Dive 5 (start 09:00, 3000 s) as the only dive at the trip's
location, the matcher assigns the 08:45 photo (15 minutes before start,
inside the 30-minute pre-buffer) to dive number 5, and assigns the 08:25
photo (35 minutes before start, outside the buffer) to no dive at all. -/
theorem c2_photo_window_example :
    buildDivePhotoMap 0 [c2trip] [c2dive] [c2photo0845, c2photo0825] (fun _ => []) =
      fun k => if k = 5 then [c2photo0845] else [] := by
  have hp : (fun d => normLoc d.location == normLoc (tripNameAt [c2trip] 0)) c2dive = true := by
    with_unfolding_all decide
  have htd : [c2dive].filter (fun d => normLoc d.location == normLoc (tripNameAt [c2trip] 0))
      = [c2dive] := by
    simp [hp]
  have hm0 : ∀ k', clearDivePhotosForTrip 0 [c2trip] [c2dive] (fun _ => []) k' = [] := by
    intro k'
    unfold clearDivePhotosForTrip
    rw [clearLoop_apply]
    split <;> rfl
  funext k
  unfold buildDivePhotoMap
  rw [if_neg (by simp), htd, if_neg (by simp)]
  rw [List.foldl_cons, List.foldl_cons, List.foldl_nil]
  have h845 : assignStep [c2dive] (clearDivePhotosForTrip 0 [c2trip] [c2dive] (fun _ => []))
      c2photo0845
      = fun k' => if k' = 5
          then clearDivePhotosForTrip 0 [c2trip] [c2dive] (fun _ => []) k' ++ [c2photo0845]
          else clearDivePhotosForTrip 0 [c2trip] [c2dive] (fun _ => []) k' := by
    unfold assignStep
    rw [if_neg (by with_unfolding_all decide),
      show List.find? (fun d => diveWindowMatch d c2photo0845.lastModified) [c2dive]
          = some c2dive from List.find?_cons_of_pos _ c2match845]
    rfl
  rw [h845]
  have h825 : ∀ m : DivePhotos, assignStep [c2dive] m c2photo0825 = m := by
    intro m
    unfold assignStep
    rw [if_neg (by with_unfolding_all decide),
      show List.find? (fun d => diveWindowMatch d c2photo0825.lastModified) [c2dive]
          = none from by
        rw [List.find?_cons_of_neg _ (by rw [c2match825]; exact Bool.false_ne_true),
          List.find?_nil]]
  rw [h825]
  by_cases hk : k = (5 : ℤ)
  · subst hk
    rw [if_pos rfl, if_pos rfl, hm0]
    rfl
  · rw [if_neg hk, if_neg hk, hm0]

/-! ## Photo-Cluster Dive Synthesizer: generateDivesFromPhotos -/

/-- Inverse of daysFromCivil: the Gregorian (year, month, day) of a day
count from 1970-01-01 (standard era-based algorithm). -/
def civilFromDays (z0 : ℤ) : ℤ × ℤ × ℤ :=
  let z := z0 + 719468
  let era := z.fdiv 146097
  let doe := z - era * 146097
  let yoe := (doe - doe.fdiv 1460 + doe.fdiv 36524 - doe.fdiv 146096).fdiv 365
  let y := yoe + era * 400
  let doy := doe - (365 * yoe + yoe.fdiv 4 - yoe.fdiv 100)
  let mp := (5 * doy + 2).fdiv 153
  let d := doy - (153 * mp + 2).fdiv 5 + 1
  let m := if mp < 10 then mp + 3 else mp - 9
  (if m ≤ 2 then y + 1 else y, m, d)

/-- The local-time components read back from a timestamp (getFullYear,
getMonth()+1, getDate, getHours, getMinutes); the model's local-time
offset is fixed at zero, matching msOfLocal. -/
structure LocalParts where
  year : ℤ
  month1 : ℤ
  day : ℤ
  hour : ℤ
  minute : ℤ

def msToLocalParts (ms : ℤ) : LocalParts :=
  let days := ms.fdiv 86400000
  let rem := ms.emod 86400000
  let c := civilFromDays days
  { year := c.1, month1 := c.2.1, day := c.2.2
    hour := rem.fdiv 3600000, minute := (rem.emod 3600000).fdiv 60000 }

/-- getFullYear() + '-' + pad(getMonth()+1) + '-' + pad(getDate()). -/
def jsDateStr (ms : ℤ) : String :=
  let p := msToLocalParts ms
  toString p.year ++ "-" ++ pad2 p.month1 ++ "-" ++ pad2 p.day

/-- pad(getHours()) + ':' + pad(getMinutes()). -/
def jsTimeStr (ms : ℤ) : String :=
  let p := msToLocalParts ms
  pad2 p.hour ++ ":" ++ pad2 p.minute

/-- The 75-minute grouping window in milliseconds. -/
def WINDOW_MS : ℤ := 75 * 60 * 1000

/-- One iteration of the grouping loop: the item joins the current group
when its timestamp is within WINDOW_MS of the group's FIRST timestamp
(groupStart); otherwise the group is closed and a new one starts.  State:
(finished groups, current group, groupStart). -/
def clusterStep (st : List (List (ℤ × MediaFile)) × List (ℤ × MediaFile) × ℤ)
    (x : ℤ × MediaFile) : List (List (ℤ × MediaFile)) × List (ℤ × MediaFile) × ℤ :=
  if x.1 ≤ st.2.2 + WINDOW_MS then (st.1, st.2.1 ++ [x], st.2.2)
  else (st.1 ++ [st.2.1], [x], x.1)

/-- The photoOnly dive created from one cluster. -/
def clusterDive (location : String) (num : ℤ) (g : List (ℤ × MediaFile)) : Dive :=
  let startTs := (g.headD (0, ⟨"", 0⟩)).1
  let endTs := (g.getLastD (0, ⟨"", 0⟩)).1
  let durationSec := jsRound (((endTs - startTs : ℤ) : ℚ) / 1000)
  { number := num
    date := jsDateStr startTs
    time := jsTimeStr startTs
    endTime := jsTimeStr endTs
    location := location
    site := ""
    maxDepthM := 0, maxDepthFt := 0
    durationMin := jsRound ((durationSec : ℚ) / 60)
    durationSec := durationSec
    startPSI := 0, endPSI := 0, gasUsed := 0, o2Percent := 0
    avgTempC := 0, avgDepthM := 0, endGF99 := 0
    photoOnly := true }

/-- The collections touched by generateDivesFromPhotos. -/
structure PhotoGenResult where
  dives : List Dive
  trips : List Trip
  photos : DivePhotos

/-- generateDivesFromPhotos: sort the trip's timestamped files ascending,
greedily partition them into clusters anchored at each cluster's first
timestamp, create one photoOnly dive per cluster numbered from
max(existing numbers)+1, set the trip's dive count to the cluster count,
and rebuild the trip's photo map.  The location-filter DOM update only
touches the UI.  With an out-of-range tripIdx the source would throw on
trip.dives; callers always pass a valid index, and List.set is a no-op
there. -/
def generateDivesFromPhotos (tripIdx : ℕ) (tripsData : List Trip) (dives : List Dive)
    (files : List MediaFile) (divePhotos : DivePhotos) : PhotoGenResult :=
  if files = [] then ⟨dives, tripsData, divePhotos⟩
  else
    let location := tripNameAt tripsData tripIdx
    let timed := stableSort (fun a b => decide (a.1 ≤ b.1))
      ((files.map (fun f => (f.lastModified, f))).filter (fun x => decide (0 < x.1)))
    match timed with
    | [] => ⟨dives, tripsData, divePhotos⟩
    | t0 :: rest =>
      let cl := rest.foldl clusterStep ([], [t0], t0.1)
      let groups := cl.1 ++ [cl.2.1]
      let maxNum := dives.foldl (fun m d => max m d.number) 0
      let newDives := groups.enum.map (fun p => clusterDive location (maxNum + 1 + p.1) p.2)
      let dives' := dives ++ newDives
      let trips' := match tripsData.get? tripIdx with
        | some t => tripsData.set tripIdx { t with dives := groups.length }
        | none => tripsData
      ⟨dives', trips', buildDivePhotoMap tripIdx trips' dives' files divePhotos⟩

/-! ## Claim C4 -/

/-- The C4 trip: a fresh trip with zero recorded dives. -/
def c4trip : Trip :=
  { name := "Palau", dates := "", dives := 0, hours := 0, maxDepth := 0
    avgGas := 0, color := "#94a3b8", endDate := "" }

/-- The local time 2024-03-10 10:00 in milliseconds (precomputed literal so
concrete evaluation stays shallow; the next theorem records its origin). -/
def c4t0 : ℤ := 1710064800000

theorem c4t0_is_local_time : c4t0 = msOfLocal 2024 2 10 10 0 := by
  with_unfolding_all decide

/-- A photo taken off minutes after c4t0. -/
def c4f (n : String) (off : ℤ) : MediaFile := ⟨n, c4t0 + off * 60000⟩

/-- The observable fingerprint of a synthesized dive: its identity and
temporal fields plus the photoOnly flag. -/
structure DiveFP where
  number : ℤ
  date : String
  time : String
  endTime : String
  durationSec : ℤ
  durationMin : ℤ
  photoOnly : Bool
deriving DecidableEq, Repr

def diveFingerprint (d : Dive) : DiveFP :=
  ⟨d.number, d.date, d.time, d.endTime, d.durationSec, d.durationMin, d.photoOnly⟩

set_option maxRecDepth 2000 in
/-- C4: the cluster window is anchored at the cluster's first timestamp and
does not slide: photos 0/40/74 minutes after the first all join one
synthetic photoOnly dive (74 ≤ 75); a photo 76 minutes after the first
starts a second cluster and hence a second photoOnly dive, even when an
intermediate photo at 70 minutes leaves a gap of only 6 minutes before it;
the trip's dive count becomes the cluster count. -/
theorem c4_cluster_window_anchored :
    ((generateDivesFromPhotos 0 [c4trip] [] [c4f "a" 0, c4f "b" 40, c4f "c" 74]
        (fun _ => [])).dives.map diveFingerprint
      = [⟨1, "2024-03-10", "10:00", "11:14", 4440, 74, true⟩]) ∧
    ((generateDivesFromPhotos 0 [c4trip] [] [c4f "a" 0, c4f "b" 76]
        (fun _ => [])).dives.map diveFingerprint
      = [⟨1, "2024-03-10", "10:00", "10:00", 0, 0, true⟩,
         ⟨2, "2024-03-10", "11:16", "11:16", 0, 0, true⟩]) ∧
    ((generateDivesFromPhotos 0 [c4trip] [] [c4f "a" 0, c4f "b" 70, c4f "c" 76]
        (fun _ => [])).dives.map diveFingerprint
      = [⟨1, "2024-03-10", "10:00", "11:10", 4200, 70, true⟩,
         ⟨2, "2024-03-10", "11:16", "11:16", 0, 0, true⟩]) ∧
    ((generateDivesFromPhotos 0 [c4trip] [] [c4f "a" 0, c4f "b" 70, c4f "c" 76]
        (fun _ => [])).trips.map (fun t => t.dives) = [2]) := by
  refine ⟨?_, ?_, ?_, ?_⟩
  · -- one cluster: 40 and 74 minutes are within the 75-minute window of the first photo
    have ht : stableSort (fun a b => decide (a.1 ≤ b.1))
        (([c4f "a" 0, c4f "b" 40, c4f "c" 74].map (fun f => (f.lastModified, f))).filter
          (fun x => decide (0 < x.1)))
        = [(c4t0, c4f "a" 0), (c4t0 + 2400000, c4f "b" 40), (c4t0 + 4440000, c4f "c" 74)] := by
      decide
    have hfp : diveFingerprint (clusterDive "Palau" 1
        [(c4t0, c4f "a" 0), (c4t0 + 2400000, c4f "b" 40), (c4t0 + 4440000, c4f "c" 74)])
        = ⟨1, "2024-03-10", "10:00", "11:14", 4440, 74, true⟩ := by
      simp only [diveFingerprint, DiveFP.mk.injEq]
      refine ⟨by decide, by decide, by decide, by decide, ?_, ?_, by decide⟩
      · with_unfolding_all decide
      · with_unfolding_all decide
    simp only [generateDivesFromPhotos]
    rw [if_neg (by simp), ht]
    show [clusterDive "Palau" 1
        [(c4t0, c4f "a" 0), (c4t0 + 2400000, c4f "b" 40), (c4t0 + 4440000, c4f "c" 74)]].map
          diveFingerprint = _
    rw [List.map_cons, List.map_nil, hfp]
  · -- two clusters: 76 minutes is outside the window of the first photo
    have ht : stableSort (fun a b => decide (a.1 ≤ b.1))
        (([c4f "a" 0, c4f "b" 76].map (fun f => (f.lastModified, f))).filter
          (fun x => decide (0 < x.1)))
        = [(c4t0, c4f "a" 0), (c4t0 + 4560000, c4f "b" 76)] := by
      decide
    have hfp1 : diveFingerprint (clusterDive "Palau" 1 [(c4t0, c4f "a" 0)])
        = ⟨1, "2024-03-10", "10:00", "10:00", 0, 0, true⟩ := by
      simp only [diveFingerprint, DiveFP.mk.injEq]
      refine ⟨by decide, by decide, by decide, by decide, ?_, ?_, by decide⟩
      · with_unfolding_all decide
      · with_unfolding_all decide
    have hfp2 : diveFingerprint (clusterDive "Palau" 2 [(c4t0 + 4560000, c4f "b" 76)])
        = ⟨2, "2024-03-10", "11:16", "11:16", 0, 0, true⟩ := by
      simp only [diveFingerprint, DiveFP.mk.injEq]
      refine ⟨by decide, by decide, by decide, by decide, ?_, ?_, by decide⟩
      · with_unfolding_all decide
      · with_unfolding_all decide
    simp only [generateDivesFromPhotos]
    rw [if_neg (by simp), ht]
    show [clusterDive "Palau" 1 [(c4t0, c4f "a" 0)],
        clusterDive "Palau" 2 [(c4t0 + 4560000, c4f "b" 76)]].map diveFingerprint = _
    rw [List.map_cons, List.map_cons, List.map_nil, hfp1, hfp2]
  · -- anchored, not sliding: 76 is only 6 minutes after 70, yet starts a new cluster
    have ht : stableSort (fun a b => decide (a.1 ≤ b.1))
        (([c4f "a" 0, c4f "b" 70, c4f "c" 76].map (fun f => (f.lastModified, f))).filter
          (fun x => decide (0 < x.1)))
        = [(c4t0, c4f "a" 0), (c4t0 + 4200000, c4f "b" 70), (c4t0 + 4560000, c4f "c" 76)] := by
      decide
    have hfp1 : diveFingerprint (clusterDive "Palau" 1
        [(c4t0, c4f "a" 0), (c4t0 + 4200000, c4f "b" 70)])
        = ⟨1, "2024-03-10", "10:00", "11:10", 4200, 70, true⟩ := by
      simp only [diveFingerprint, DiveFP.mk.injEq]
      refine ⟨by decide, by decide, by decide, by decide, ?_, ?_, by decide⟩
      · with_unfolding_all decide
      · with_unfolding_all decide
    have hfp2 : diveFingerprint (clusterDive "Palau" 2 [(c4t0 + 4560000, c4f "c" 76)])
        = ⟨2, "2024-03-10", "11:16", "11:16", 0, 0, true⟩ := by
      simp only [diveFingerprint, DiveFP.mk.injEq]
      refine ⟨by decide, by decide, by decide, by decide, ?_, ?_, by decide⟩
      · with_unfolding_all decide
      · with_unfolding_all decide
    simp only [generateDivesFromPhotos]
    rw [if_neg (by simp), ht]
    show [clusterDive "Palau" 1 [(c4t0, c4f "a" 0), (c4t0 + 4200000, c4f "b" 70)],
        clusterDive "Palau" 2 [(c4t0 + 4560000, c4f "c" 76)]].map diveFingerprint = _
    rw [List.map_cons, List.map_cons, List.map_nil, hfp1, hfp2]
  · -- the trip's dive count is set to the number of clusters
    have ht : stableSort (fun a b => decide (a.1 ≤ b.1))
        (([c4f "a" 0, c4f "b" 70, c4f "c" 76].map (fun f => (f.lastModified, f))).filter
          (fun x => decide (0 < x.1)))
        = [(c4t0, c4f "a" 0), (c4t0 + 4200000, c4f "b" 70), (c4t0 + 4560000, c4f "c" 76)] := by
      decide
    simp only [generateDivesFromPhotos]
    rw [if_neg (by simp), ht]
    decide

/-! ## Profile Synthesizer: generateDepthProfile, interpolateDepth

The depth estimate is float arithmetic in the source; the only float
special values reachable here come from division (0/0 is NaN, x/0 is
±Infinity), so numbers are modelled as exact rationals extended with
NaN and signed Infinity.  Math.sin is modelled as an oracle parameter:
it is a total real function, so it never introduces NaN. -/

/-- A JavaScript number: a finite value (exact rational model), a signed
infinity, or NaN.  Negative zero is not modelled; no reachable expression
here distinguishes it. -/
inductive JSNum where
  | num (q : ℚ)
  | inf (pos : Bool)
  | nan
deriving DecidableEq, Repr

namespace JSNum

def jsNeg : JSNum → JSNum
  | num q => num (-q)
  | inf s => inf (!s)
  | nan => nan

def jsAdd : JSNum → JSNum → JSNum
  | nan, _ => nan
  | _, nan => nan
  | num a, num b => num (a + b)
  | num _, inf s => inf s
  | inf s, num _ => inf s
  | inf s, inf t => if s = t then inf s else nan

def jsMul : JSNum → JSNum → JSNum
  | nan, _ => nan
  | _, nan => nan
  | num a, num b => num (a * b)
  | num a, inf s => if a = 0 then nan else inf (decide (0 < a) == s)
  | inf s, num b => if b = 0 then nan else inf (s == decide (0 < b))
  | inf s, inf t => inf (s == t)

instance : Neg JSNum := ⟨jsNeg⟩
instance : Add JSNum := ⟨jsAdd⟩
instance : Sub JSNum := ⟨fun a b => jsAdd a (jsNeg b)⟩
instance : Mul JSNum := ⟨jsMul⟩

end JSNum

/-- JavaScript division on the extended numbers: 0/0 is NaN, x/0 is a
signed infinity (the divisor 0 is +0 here: -0 is not modelled). -/
def jsDiv : JSNum → JSNum → JSNum
  | JSNum.nan, _ => JSNum.nan
  | _, JSNum.nan => JSNum.nan
  | JSNum.num a, JSNum.num b =>
    if b = 0 then (if a = 0 then JSNum.nan else JSNum.inf (decide (0 < a)))
    else JSNum.num (a / b)
  | JSNum.num _, JSNum.inf _ => JSNum.num 0
  | JSNum.inf s, JSNum.num b => JSNum.inf (s == decide (0 ≤ b))
  | JSNum.inf _, JSNum.inf _ => JSNum.nan

/-- Math.round on an extended number. -/
def jsRoundN : JSNum → JSNum
  | JSNum.num q => JSNum.num ((jsRound q : ℤ) : ℚ)
  | JSNum.inf s => JSNum.inf s
  | JSNum.nan => JSNum.nan

/-- Math.max(0, x): NaN-propagating maximum against 0. -/
def jsMax0 : JSNum → JSNum
  | JSNum.num q => JSNum.num (max 0 q)
  | JSNum.inf s => if s then JSNum.inf true else JSNum.num 0
  | JSNum.nan => JSNum.nan

/-- descentRate: 18 m/min metric, 60 ft/min imperial. -/
def descentRate (m : Bool) : ℚ := if m then 18 else 60

/-- ascentRate: 9 m/min metric, 30 ft/min imperial. -/
def ascentRate (m : Bool) : ℚ := if m then 9 else 30

/-- maxDepth in the active unit mode. -/
def pMaxDepth (m : Bool) (d : Dive) : ℚ := if m then d.maxDepthM else (d.maxDepthFt : ℚ)

/-- avgDepth in the active unit mode (the 3.28 conversion is the source's
literal). -/
def pAvgDepth (m : Bool) (d : Dive) : ℚ := if m then d.avgDepthM else d.avgDepthM * 3.28

/-- descentTime = (maxDepth / descentRate) * 60. -/
def pDescentTime (m : Bool) (d : Dive) : ℚ := pMaxDepth m d / descentRate m * 60

/-- safetyStopDepth: 5 m metric, 15 ft imperial. -/
def safetyStopDepth (m : Bool) : ℚ := if m then 5 else 15

/-- safetyStopTime: 180 s when maxDepth exceeds 10 m / 30 ft, else 0. -/
def pSafetyStopTime (m : Bool) (d : Dive) : ℚ :=
  if pMaxDepth m d > (if m then (10 : ℚ) else 30) then 180 else 0

/-- ascentTime as the source writes it. -/
def pAscentTime (m : Bool) (d : Dive) : ℚ :=
  (pMaxDepth m d - safetyStopDepth m) / ascentRate m * 60 + safetyStopDepth m / ascentRate m * 60

/-- bottomTime = duration - descentTime - ascentTime - safetyStopTime. -/
def pBottomTime (m : Bool) (d : Dive) : ℚ :=
  (d.durationSec : ℚ) - pDescentTime m d - pAscentTime m d - pSafetyStopTime m d

/-- The piecewise depth estimate at elapsed second t (the body of the
sampling loop).  The divisions whose divisor is data-dependent go through
jsDiv; every other operand is finite. -/
def depthAt (sinF : ℚ → ℚ) (m : Bool) (d : Dive) (t : ℚ) : JSNum :=
  if t ≤ pDescentTime m d then
    jsDiv (JSNum.num t) (JSNum.num (pDescentTime m d)) * JSNum.num (pMaxDepth m d)
  else if t ≤ pDescentTime m d + pBottomTime m d * 0.3 then JSNum.num (pMaxDepth m d)
  else if t ≤ pDescentTime m d + pBottomTime m d * 0.7 then
    JSNum.num (pMaxDepth m d) -
      (JSNum.num (pMaxDepth m d) - JSNum.num (pAvgDepth m d * 1.2)) *
        jsDiv (JSNum.num (t - pDescentTime m d - pBottomTime m d * 0.3))
          (JSNum.num (pBottomTime m d * 0.4)) * JSNum.num 0.5
  else if t ≤ pDescentTime m d + pBottomTime m d then
    JSNum.num (pAvgDepth m d * 1.1 + sinF (t / 60) * 2)
  else if t ≤ (d.durationSec : ℚ) - pSafetyStopTime m d - 60 then
    JSNum.num (pAvgDepth m d * 1.1) *
        (JSNum.num 1 - jsDiv (JSNum.num (t - pDescentTime m d - pBottomTime m d))
          (JSNum.num ((d.durationSec : ℚ) - pDescentTime m d - pBottomTime m d
            - pSafetyStopTime m d - 60))) +
      JSNum.num (safetyStopDepth m) *
        jsDiv (JSNum.num (t - pDescentTime m d - pBottomTime m d))
          (JSNum.num ((d.durationSec : ℚ) - pDescentTime m d - pBottomTime m d
            - pSafetyStopTime m d - 60))
  else if t ≤ (d.durationSec : ℚ) - 60 then JSNum.num (safetyStopDepth m)
  else JSNum.num (safetyStopDepth m * (1 - (t - ((d.durationSec : ℚ) - 60)) / 60))

/-- One sampled point: x = Math.round(t / 60) minutes, y the clamped
one-decimal depth. -/
structure ProfilePoint where
  x : ℤ
  y : JSNum
deriving DecidableEq, Repr

/-- Number of iterations of `for (t = 0; t <= duration; t += 30)`. -/
def profileSteps (durationSec : ℤ) : ℕ :=
  if durationSec < 0 then 0 else durationSec.toNat / 30 + 1

/-- The sampled point at step k (t = 30 k seconds). -/
def profilePoint (sinF : ℚ → ℚ) (m : Bool) (d : Dive) (k : ℕ) : ProfilePoint :=
  { x := jsRound ((30 * (k : ℚ)) / 60)
    y := jsMax0 (jsDiv (jsRoundN (depthAt sinF m d (30 * (k : ℚ)) * JSNum.num 10))
      (JSNum.num 10)) }

/-- generateDepthProfile: sample the piecewise estimate every 30 seconds
over [0, durationSec]. -/
def generateDepthProfile (sinF : ℚ → ℚ) (m : Bool) (d : Dive) : List ProfilePoint :=
  (List.range (profileSteps d.durationSec)).map (profilePoint sinF m d)

/-- The pair scan of interpolateDepth: p is points[i], the head of the
second argument is points[i+1]; falling through returns the last y.  On a
singleton list the loop body never runs and the last (= only) y returns. -/
def interpLoop (p : ProfilePoint) : List ProfilePoint → ℚ → JSNum
  | [], _ => p.y
  | pnext :: rest, tm =>
    if (p.x : ℚ) ≤ tm ∧ tm ≤ (pnext.x : ℚ) then
      p.y + jsDiv (JSNum.num (tm - (p.x : ℚ))) (JSNum.num ((pnext.x : ℚ) - (p.x : ℚ)))
        * (pnext.y - p.y)
    else interpLoop pnext rest tm

/-- interpolateDepth: first bracketing pair wins; no bracket returns the
last point's y; an empty list returns 0. -/
def interpolateDepth (l : List ProfilePoint) (tm : ℚ) : JSNum :=
  match l with
  | [] => JSNum.num 0
  | p :: rest => interpLoop p rest tm

/-! ## Claim C7 -/

theorem num_add_num (a b : ℚ) : JSNum.num a + JSNum.num b = JSNum.num (a + b) := rfl

theorem num_sub_num (a b : ℚ) : JSNum.num a - JSNum.num b = JSNum.num (a + -b) := rfl

theorem num_mul_num (a b : ℚ) : JSNum.num a * JSNum.num b = JSNum.num (a * b) := rfl

theorem jsDiv_num_num (a b : ℚ) (hb : b ≠ 0) :
    jsDiv (JSNum.num a) (JSNum.num b) = JSNum.num (a / b) := by
  show (if b = 0 then (if a = 0 then JSNum.nan else JSNum.inf (decide (0 < a)))
    else JSNum.num (a / b)) = JSNum.num (a / b)
  rw [if_neg hb]

theorem descentRate_pos (m : Bool) : 0 < descentRate m := by
  unfold descentRate; cases m <;> norm_num

theorem pDescentTime_ne_zero (m : Bool) (d : Dive) (hmd : pMaxDepth m d ≠ 0) :
    pDescentTime m d ≠ 0 := by
  unfold pDescentTime
  intro hc
  apply hmd
  have hr : descentRate m ≠ 0 := (descentRate_pos m).ne.symm
  rcases mul_eq_zero.mp hc with h | h
  · rcases div_eq_zero_iff.mp h with h1 | h1
    · exact h1
    · exact absurd h1 hr
  · norm_num at h

/-- Whenever the selected maxDepth is nonzero, the piecewise depth value
is finite: every branch's data-dependent divisor is nonzero when the
branch is reachable. -/
theorem depthAt_finite (sinF : ℚ → ℚ) (m : Bool) (d : Dive) (t : ℚ)
    (hmd : pMaxDepth m d ≠ 0) :
    ∃ q : ℚ, depthAt sinF m d t = JSNum.num q := by
  unfold depthAt
  split_ifs with h1 h2 h3 h4 h5 h6
  · rw [jsDiv_num_num _ _ (pDescentTime_ne_zero m d hmd), num_mul_num]
    exact ⟨_, rfl⟩
  · exact ⟨_, rfl⟩
  · have hb : pBottomTime m d * 0.4 ≠ 0 := by
      push_neg at h2
      nlinarith [h2, h3]
    rw [jsDiv_num_num _ _ hb]
    exact ⟨_, rfl⟩
  · exact ⟨_, rfl⟩
  · have hD : (d.durationSec : ℚ) - pDescentTime m d - pBottomTime m d
        - pSafetyStopTime m d - 60 ≠ 0 := by
      push_neg at h4
      have : pDescentTime m d + pBottomTime m d < (d.durationSec : ℚ)
          - pSafetyStopTime m d - 60 := lt_of_lt_of_le h4 h5
      intro hc
      nlinarith [this, hc]
    rw [jsDiv_num_num _ _ hD]
    exact ⟨_, rfl⟩
  · exact ⟨_, rfl⟩
  · exact ⟨_, rfl⟩

/-- The clamp/round postprocessing of a finite depth yields a nonnegative
one-decimal value. -/
theorem profilePoint_y (sinF : ℚ → ℚ) (m : Bool) (d : Dive) (k : ℕ)
    (hmd : pMaxDepth m d ≠ 0) :
    ∃ v : ℤ, 0 ≤ v ∧ (profilePoint sinF m d k).y = JSNum.num ((v : ℚ) / 10) := by
  obtain ⟨q, hq⟩ := depthAt_finite sinF m d (30 * (k : ℚ)) hmd
  refine ⟨max (jsRound (q * 10)) 0, le_max_right _ _, ?_⟩
  unfold profilePoint
  rw [hq, num_mul_num, show jsRoundN (JSNum.num (q * 10)) = JSNum.num ((jsRound (q * 10) : ℤ) : ℚ) from rfl,
    jsDiv_num_num _ _ (by norm_num)]
  show JSNum.num (max 0 ((jsRound (q * 10) : ℤ) / 10 : ℚ)) = _
  congr 1
  rcases le_or_lt 0 (jsRound (q * 10)) with h | h
  · have h' : (0 : ℚ) ≤ ((jsRound (q * 10) : ℤ) : ℚ) / 10 := by
      have hc : (0 : ℚ) ≤ ((jsRound (q * 10) : ℤ) : ℚ) := by exact_mod_cast h
      positivity
    rw [max_eq_right h', max_eq_left h]
  · have h' : ((jsRound (q * 10) : ℤ) : ℚ) / 10 ≤ 0 := by
      have hc : ((jsRound (q * 10) : ℤ) : ℚ) ≤ 0 := by exact_mod_cast h.le
      exact div_nonpos_of_nonpos_of_nonneg hc (by norm_num)
    rw [max_eq_left h', max_eq_right h.le]
    norm_num

/-- C7, amended: for every dive whose selected maxDepth is nonzero (the
maxDepth-zero case divides 0/0 at t = 0 and emits NaN), every point
emitted by the Profile Synthesizer carries a finite depth value that is
≥ 0 and a whole number of tenths (one decimal) -- in particular never NaN.
The 30-second sampling over [0, durationSec] is the generator's loop
structure itself. -/
theorem c7_profile_points_safe (sinF : ℚ → ℚ) (m : Bool) (d : Dive)
    (hmd : pMaxDepth m d ≠ 0) (p : ProfilePoint)
    (hp : p ∈ generateDepthProfile sinF m d) :
    ∃ v : ℤ, 0 ≤ v ∧ p.y = JSNum.num ((v : ℚ) / 10) := by
  rw [generateDepthProfile, List.mem_map] at hp
  obtain ⟨k, _, hpk⟩ := hp
  rw [← hpk]
  exact profilePoint_y sinF m d k hmd

/-- A zero-max-depth dive (the shape photo-only dives have). -/
def c7dive : Dive :=
  { number := 20, date := "2024-03-12", time := "10:00", endTime := "10:01"
    location := "Palau", site := "", maxDepthM := 0, maxDepthFt := 0
    durationMin := 1, durationSec := 60, startPSI := 0, endPSI := 0
    gasUsed := 0, o2Percent := 0, avgTempC := 0, avgDepthM := 0, endGF99 := 0
    photoOnly := true }

/-- The concrete sin oracle used for concrete evaluations. -/
def sinStub : ℚ → ℚ := fun _ => 0

/-- C7, counterexample: for a dive with maxDepth 0 the descent phase
divides 0/0 at t = 0 and Math.max(0, Math.round(NaN * 10) / 10) is NaN:
the first emitted point's depth is NaN, refuting the claim for every
(any-maxDepth) dive. -/
theorem c7_counterexample :
    pMaxDepth true c7dive = 0 ∧
      (generateDepthProfile sinStub true c7dive).head?.map (fun p => p.y)
        = some JSNum.nan := by
  constructor
  · with_unfolding_all rfl
  · with_unfolding_all rfl

/-- Witness dive for the amended C7 theorem. -/
def wDive7 : Dive := { c7dive with maxDepthM := 10, avgDepthM := 5, durationSec := 60 }

theorem c7_profile_points_safe_witness :
    pMaxDepth true wDive7 ≠ 0 ∧
      ∃ v : ℤ, 0 ≤ v ∧ (profilePoint sinStub true wDive7 0).y = JSNum.num ((v : ℚ) / 10) :=
  ⟨by with_unfolding_all decide,
    c7_profile_points_safe sinStub true wDive7 (by with_unfolding_all decide)
      (profilePoint sinStub true wDive7 0)
      (by
        rw [generateDepthProfile, List.mem_map]
        exact ⟨0, by with_unfolding_all decide, rfl⟩)⟩

/-! ## Claim C6 -/

/-- A point's y value is a nonnegative number of tenths whenever the
selected maxDepth is nonzero (shared helper behind claims C6 and C7). -/
theorem profile_mem_y (sinF : ℚ → ℚ) (m : Bool) (d : Dive)
    (hmd : pMaxDepth m d ≠ 0) (p : ProfilePoint)
    (hp : p ∈ generateDepthProfile sinF m d) :
    ∃ v : ℤ, 0 ≤ v ∧ p.y = JSNum.num ((v : ℚ) / 10) := by
  rw [generateDepthProfile, List.mem_map] at hp
  obtain ⟨k, _, hpk⟩ := hp
  rw [← hpk]
  exact profilePoint_y sinF m d k hmd

/-- The last point reached by the interpolation scan. -/
def lastPoint (p : ProfilePoint) : List ProfilePoint → ProfilePoint
  | [] => p
  | pn :: rest => lastPoint pn rest

theorem lastPoint_eq_getLastD (p : ProfilePoint) (rest : List ProfilePoint)
    (dflt : ProfilePoint) : lastPoint p rest = (p :: rest).getLastD dflt := by
  induction rest generalizing p dflt with
  | nil => rfl
  | cons pn rest ih =>
    show lastPoint pn rest = _
    rw [ih pn dflt]
    simp [List.getLastD_cons]

theorem interpLoop_all_lt (tm : ℚ) (p : ProfilePoint) (rest : List ProfilePoint)
    (h : ∀ a ∈ p :: rest, tm < (a.x : ℚ)) :
    interpLoop p rest tm = (lastPoint p rest).y := by
  induction rest generalizing p with
  | nil => rfl
  | cons pn rest ih =>
    show (if (p.x : ℚ) ≤ tm ∧ tm ≤ (pn.x : ℚ) then _ else _) = _
    rw [if_neg (by
      intro hc
      exact absurd hc.1 (not_le.mpr (h p (by simp))))]
    exact ih pn (fun a ha => h a (by simp at ha ⊢; tauto))

theorem interpLoop_all_gt (tm : ℚ) (p : ProfilePoint) (rest : List ProfilePoint)
    (h : ∀ a ∈ p :: rest, (a.x : ℚ) < tm) :
    interpLoop p rest tm = (lastPoint p rest).y := by
  induction rest generalizing p with
  | nil => rfl
  | cons pn rest ih =>
    show (if (p.x : ℚ) ≤ tm ∧ tm ≤ (pn.x : ℚ) then _ else _) = _
    rw [if_neg (by
      intro hc
      exact absurd hc.2 (not_le.mpr (h pn (by simp))))]
    exact ih pn (fun a ha => h a (by simp at ha ⊢; tauto))

theorem profilePoint_x (sinF : ℚ → ℚ) (m : Bool) (d : Dive) (k : ℕ) :
    (profilePoint sinF m d k).x = ((k : ℤ) + 1) / 2 := by
  show jsRound ((30 * (k : ℚ)) / 60) = _
  rw [jsRound_eq]
  have he : (30 * (k : ℚ)) / 60 + 1/2 = (((k : ℤ) + 1 : ℤ) : ℚ) / ((2 : ℕ) : ℚ) := by
    push_cast
    ring
  rw [he, Rat.floor_intCast_div_natCast]
  norm_num

theorem generateDepthProfile_length (sinF : ℚ → ℚ) (m : Bool) (d : Dive) :
    (generateDepthProfile sinF m d).length = profileSteps d.durationSec := by
  simp [generateDepthProfile]

theorem profile_getD_x (sinF : ℚ → ℚ) (m : Bool) (d : Dive) (k : ℕ)
    (hk : k < profileSteps d.durationSec) (dflt : ProfilePoint) :
    ((generateDepthProfile sinF m d).getD k dflt).x = ((k : ℤ) + 1) / 2 := by
  rw [generateDepthProfile, List.getD_eq_getElem?_getD, List.getElem?_map,
    List.getElem?_range hk]
  exact profilePoint_x sinF m d k

theorem profile_mem_x (sinF : ℚ → ℚ) (m : Bool) (d : Dive) (p : ProfilePoint)
    (hp : p ∈ generateDepthProfile sinF m d) :
    ∃ k : ℕ, k < profileSteps d.durationSec ∧ p.x = ((k : ℤ) + 1) / 2 := by
  rw [generateDepthProfile, List.mem_map] at hp
  obtain ⟨k, hk, hpk⟩ := hp
  exact ⟨k, by simpa using hk, by rw [← hpk]; exact profilePoint_x sinF m d k⟩

theorem profile_chain (sinF : ℚ → ℚ) (m : Bool) (d : Dive) :
    List.Chain' (fun a b : ProfilePoint => b.x = a.x ∨ b.x = a.x + 1)
      (generateDepthProfile sinF m d) := by
  rw [generateDepthProfile, List.chain'_map]
  rcases hn : profileSteps d.durationSec with _ | n
  · simp
  · rw [List.chain'_range_succ]
    intro k _
    rw [profilePoint_x, profilePoint_x]
    omega

theorem getLastD_map_range {α : Type*} (f : ℕ → α) (n : ℕ) (hn : n ≠ 0) (dflt : α) :
    ((List.range n).map f).getLastD dflt = f (n - 1) := by
  obtain ⟨k, rfl⟩ := Nat.exists_eq_succ_of_ne_zero hn
  rw [List.range_succ, List.map_append]
  simp

/-- The interpolation scan on an in-range query: the first bracketing pair
wins; the first pair it can reach is never degenerate (adjacent x values
differ by at most one, and once the scan passes a pair the query is
strictly above its right end), so the division is by exactly 1. -/
theorem interpLoop_bracket (tm : ℚ) : ∀ (p : ProfilePoint) (rest : List ProfilePoint),
    List.Chain' (fun a b : ProfilePoint => b.x = a.x ∨ b.x = a.x + 1) (p :: rest) →
    ((p.x : ℚ) < tm ∨ ((p.x : ℚ) ≤ tm ∧ ∃ pn rest2, rest = pn :: rest2 ∧ pn.x = p.x + 1)) →
    tm ≤ ((lastPoint p rest).x : ℚ) →
    ∃ pre pa pb post,
      p :: rest = pre ++ pa :: pb :: post ∧
      (pa.x : ℚ) ≤ tm ∧ tm ≤ (pb.x : ℚ) ∧ pb.x = pa.x + 1 ∧
      interpLoop p rest tm
        = pa.y + jsDiv (JSNum.num (tm - (pa.x : ℚ)))
            (JSNum.num ((pb.x : ℚ) - (pa.x : ℚ))) * (pb.y - pa.y) := by
  intro p rest
  induction rest generalizing p with
  | nil =>
    intro _ hfirst hlast
    rcases hfirst with h | ⟨_, pn, rest2, hr, _⟩
    · exact absurd hlast (not_le.mpr h)
    · cases hr
  | cons pn rest ih =>
    intro hchain hfirst hlast
    by_cases hc : (p.x : ℚ) ≤ tm ∧ tm ≤ (pn.x : ℚ)
    · have hrel : pn.x = p.x ∨ pn.x = p.x + 1 := (List.chain'_cons.mp hchain).1
      have hpx : pn.x = p.x + 1 := by
        rcases hrel with h | h
        · rcases hfirst with hf | ⟨_, pn', rest2', hr', hx'⟩
          · exfalso
            have hc2 := hc.2
            rw [h] at hc2
            exact absurd hc2 (not_le.mpr hf)
          · injection hr' with h5 _
            rw [← h5] at hx'
            exact hx'
        · exact h
      refine ⟨[], p, pn, rest, rfl, hc.1, hc.2, hpx, ?_⟩
      show (if (p.x : ℚ) ≤ tm ∧ tm ≤ (pn.x : ℚ) then _ else _) = _
      rw [if_pos hc]
    · have hple : (p.x : ℚ) ≤ tm := by
        rcases hfirst with h | h
        · exact h.le
        · exact h.1
      have hpn : (pn.x : ℚ) < tm := by
        by_contra hnot
        push_neg at hnot
        exact hc ⟨hple, hnot⟩
      obtain ⟨pre, pa, pb, post, heq, h1, h2, h3, h4⟩ :=
        ih pn (List.chain'_cons.mp hchain).2 (Or.inl hpn) hlast
      refine ⟨p :: pre, pa, pb, post, ?_, h1, h2, h3, ?_⟩
      · rw [List.cons_append, ← heq]
      · show (if (p.x : ℚ) ≤ tm ∧ tm ≤ (pn.x : ℚ) then _ else _) = _
        rw [if_neg hc]
        exact h4

/-- C6, amended: for every synthesized depth-profile list with at least
two samples (durationSec ≥ 30) of a dive with nonzero selected maxDepth:
a query inside [0, last sample time] is answered by linear interpolation
between the first bracketing pair of samples (adjacent and unit-spaced in
minutes) and the result is a finite nonnegative number; a query above the
last sample time returns the last sample's value; a query below 0 ALSO
returns the LAST sample's value (the loop's fallthrough), not the first
sample's. -/
theorem c6_interpolation (sinF : ℚ → ℚ) (m : Bool) (d : Dive)
    (hmd : pMaxDepth m d ≠ 0) (hdur : 30 ≤ d.durationSec) (q : ℚ) :
    (q < 0 → interpolateDepth (generateDepthProfile sinF m d) q
      = ((generateDepthProfile sinF m d).getLastD ⟨0, JSNum.num 0⟩).y) ∧
    ((((generateDepthProfile sinF m d).getLastD ⟨0, JSNum.num 0⟩).x : ℚ) < q →
      interpolateDepth (generateDepthProfile sinF m d) q
        = ((generateDepthProfile sinF m d).getLastD ⟨0, JSNum.num 0⟩).y) ∧
    (0 ≤ q → q ≤ (((generateDepthProfile sinF m d).getLastD ⟨0, JSNum.num 0⟩).x : ℚ) →
      ∃ (pre : List ProfilePoint) (pa pb : ProfilePoint) (post : List ProfilePoint) (a b : ℚ),
        generateDepthProfile sinF m d = pre ++ pa :: pb :: post ∧
        (pa.x : ℚ) ≤ q ∧ q ≤ (pb.x : ℚ) ∧ pb.x = pa.x + 1 ∧
        pa.y = JSNum.num a ∧ pb.y = JSNum.num b ∧ 0 ≤ a ∧ 0 ≤ b ∧
        interpolateDepth (generateDepthProfile sinF m d) q
          = JSNum.num (a + (q - (pa.x : ℚ)) * (b - a)) ∧
        0 ≤ a + (q - (pa.x : ℚ)) * (b - a)) := by
  have hlen := generateDepthProfile_length sinF m d
  have hn2 : 2 ≤ profileSteps d.durationSec := by
    unfold profileSteps
    rw [if_neg (by omega)]
    omega
  obtain ⟨p0, rest, hpts⟩ :=
    List.exists_cons_of_ne_nil (List.ne_nil_of_length_pos
      (show 0 < (generateDepthProfile sinF m d).length by omega))
  have hlastP : lastPoint p0 rest = (generateDepthProfile sinF m d).getLastD ⟨0, JSNum.num 0⟩ := by
    rw [hpts]
    exact lastPoint_eq_getLastD p0 rest _
  have hlastx : ((generateDepthProfile sinF m d).getLastD ⟨0, JSNum.num 0⟩).x
      = ((profileSteps d.durationSec - 1 : ℕ) + 1 : ℤ) / 2 := by
    rw [generateDepthProfile, getLastD_map_range _ _ (by omega)]
    exact profilePoint_x sinF m d _
  have hinterp : interpolateDepth (generateDepthProfile sinF m d) q = interpLoop p0 rest q := by
    rw [hpts]
    rfl
  have hmemx : ∀ a ∈ generateDepthProfile sinF m d,
      ∃ k : ℕ, k < profileSteps d.durationSec ∧ a.x = ((k : ℤ) + 1) / 2 :=
    fun a ha => profile_mem_x sinF m d a ha
  refine ⟨?_, ?_, ?_⟩
  · -- below range: every sample time is ≥ 0 > q, so the scan falls through to the last y
    intro hq
    rw [hinterp, interpLoop_all_lt q p0 rest ?_, hlastP]
    intro a ha
    obtain ⟨k, _, hx⟩ := hmemx a (by rw [hpts]; exact ha)
    have hx0 : 0 ≤ a.x := by rw [hx]; omega
    have : (0 : ℚ) ≤ (a.x : ℚ) := by exact_mod_cast hx0
    linarith
  · -- above range: every sample time is ≤ the last, so the scan falls through
    intro hq
    rw [hinterp, interpLoop_all_gt q p0 rest ?_, hlastP]
    intro a ha
    obtain ⟨k, hk, hx⟩ := hmemx a (by rw [hpts]; exact ha)
    have hxle : a.x ≤ ((generateDepthProfile sinF m d).getLastD ⟨0, JSNum.num 0⟩).x := by
      rw [hx, hlastx]
      omega
    have : (a.x : ℚ) ≤ (((generateDepthProfile sinF m d).getLastD ⟨0, JSNum.num 0⟩).x : ℚ) := by
      exact_mod_cast hxle
    linarith
  · -- in range: first bracketing pair, non-degenerate, finite nonnegative lerp
    intro h0 hql
    have hx0 : p0.x = 0 := by
      have : ((generateDepthProfile sinF m d).getD 0 ⟨0, JSNum.num 0⟩).x = ((0 : ℤ) + 1) / 2 :=
        profile_getD_x sinF m d 0 (by omega) _
      rw [hpts] at this
      simpa using this
    rcases rest with _ | ⟨p1, rest2⟩
    · exfalso
      rw [hpts] at hlen
      simp at hlen
      omega
    have hx1 : p1.x = 1 := by
      have : ((generateDepthProfile sinF m d).getD 1 ⟨0, JSNum.num 0⟩).x = ((1 : ℤ) + 1) / 2 :=
        profile_getD_x sinF m d 1 (by omega) _
      rw [hpts] at this
      simpa using this
    have hchain : List.Chain' (fun a b : ProfilePoint => b.x = a.x ∨ b.x = a.x + 1)
        (p0 :: p1 :: rest2) := by
      rw [← hpts]
      exact profile_chain sinF m d
    have hfirst : (p0.x : ℚ) < q ∨
        ((p0.x : ℚ) ≤ q ∧ ∃ pn rest3, p1 :: rest2 = pn :: rest3 ∧ pn.x = p0.x + 1) := by
      rcases lt_or_eq_of_le h0 with hlt | heq0
      · left
        rw [hx0]
        exact_mod_cast hlt
      · right
        constructor
        · rw [hx0]
          exact_mod_cast h0
        · exact ⟨p1, rest2, rfl, by rw [hx0, hx1]; norm_num⟩
    obtain ⟨pre, pa, pb, post, heq, h1, h2, h3, h4⟩ :=
      interpLoop_bracket q p0 (p1 :: rest2) hchain hfirst (by rw [hlastP]; exact hql)
    have hpamem : pa ∈ generateDepthProfile sinF m d := by
      rw [hpts, heq]
      exact List.mem_append_right _ (by simp)
    have hpbmem : pb ∈ generateDepthProfile sinF m d := by
      rw [hpts, heq]
      exact List.mem_append_right _ (by simp)
    obtain ⟨va, hva, hya⟩ := profile_mem_y sinF m d hmd pa hpamem
    obtain ⟨vb, hvb, hyb⟩ := profile_mem_y sinF m d hmd pb hpbmem
    have hden : ((pb.x : ℚ) - (pa.x : ℚ)) = 1 := by
      rw [h3]
      push_cast
      ring
    rw [hya, hyb, hden, jsDiv_num_num _ _ one_ne_zero, num_sub_num, num_mul_num, num_add_num] at h4
    have ha0 : (0 : ℚ) ≤ (va : ℚ) / 10 := by
      have : (0 : ℚ) ≤ (va : ℚ) := by exact_mod_cast hva
      positivity
    have hb0 : (0 : ℚ) ≤ (vb : ℚ) / 10 := by
      have : (0 : ℚ) ≤ (vb : ℚ) := by exact_mod_cast hvb
      positivity
    have ht0 : 0 ≤ q - (pa.x : ℚ) := by linarith
    have ht1 : q - (pa.x : ℚ) ≤ 1 := by
      have : (pb.x : ℚ) = (pa.x : ℚ) + 1 := by rw [h3]; push_cast; ring
      linarith
    refine ⟨pre, pa, pb, post, (va : ℚ) / 10, (vb : ℚ) / 10, by rw [hpts]; exact heq,
      h1, h2, h3, hya, hyb, ha0, hb0, ?_, ?_⟩
    · rw [hinterp, h4]
      congr 1
      ring
    · have hval : (va : ℚ) / 10 + (q - (pa.x : ℚ)) * ((vb : ℚ) / 10 - (va : ℚ) / 10)
          = (va : ℚ) / 10 * (1 - (q - (pa.x : ℚ))) + (vb : ℚ) / 10 * (q - (pa.x : ℚ)) := by
        ring
      rw [hval]
      exact add_nonneg (mul_nonneg ha0 (by linarith)) (mul_nonneg hb0 ht0)

/-- The C6 counterexample dive: two samples, with a nonzero depth at the
final sample (duration 40 is not a multiple of 30, so the final descent
sample sits mid-curve at 9). -/
def c6dive : Dive :=
  { number := 21, date := "2024-03-12", time := "10:00", endTime := "10:01"
    location := "Palau", site := "", maxDepthM := 9, maxDepthFt := 30
    durationMin := 1, durationSec := 40, startPSI := 0, endPSI := 0
    gasUsed := 0, o2Percent := 0, avgTempC := 0, avgDepthM := 5, endGF99 := 0
    photoOnly := true }

/-- C6, counterexample: the profile samples are [0, 9] (depths at minutes
0 and 1); the query time -1 lies outside [0, duration] and its nearest
endpoint sample is the first one (value 0), but interpolateDepth falls
through the scan and returns the LAST sample's value 9. -/
theorem c6_counterexample :
    (generateDepthProfile sinStub true c6dive).map (fun p => p.y)
      = [JSNum.num 0, JSNum.num 9] ∧
    interpolateDepth (generateDepthProfile sinStub true c6dive) (-1) = JSNum.num 9 ∧
    JSNum.num 9 ≠ JSNum.num 0 := by
  refine ⟨?_, ?_, ?_⟩
  · with_unfolding_all rfl
  · with_unfolding_all rfl
  · with_unfolding_all decide

/-- Witness for the amended C6 theorem at a concrete dive and query. -/
theorem c6_interpolation_witness :
    pMaxDepth true wDive7 ≠ 0 ∧ 30 ≤ wDive7.durationSec ∧
    (((1 : ℚ)/2 < 0 → interpolateDepth (generateDepthProfile sinStub true wDive7) (1/2)
      = ((generateDepthProfile sinStub true wDive7).getLastD ⟨0, JSNum.num 0⟩).y) ∧
    ((((generateDepthProfile sinStub true wDive7).getLastD ⟨0, JSNum.num 0⟩).x : ℚ) < 1/2 →
      interpolateDepth (generateDepthProfile sinStub true wDive7) (1/2)
        = ((generateDepthProfile sinStub true wDive7).getLastD ⟨0, JSNum.num 0⟩).y) ∧
    ((0 : ℚ) ≤ 1/2 →
      (1 : ℚ)/2 ≤ (((generateDepthProfile sinStub true wDive7).getLastD ⟨0, JSNum.num 0⟩).x : ℚ) →
      ∃ (pre : List ProfilePoint) (pa pb : ProfilePoint) (post : List ProfilePoint) (a b : ℚ),
        generateDepthProfile sinStub true wDive7 = pre ++ pa :: pb :: post ∧
        (pa.x : ℚ) ≤ 1/2 ∧ (1 : ℚ)/2 ≤ (pb.x : ℚ) ∧ pb.x = pa.x + 1 ∧
        pa.y = JSNum.num a ∧ pb.y = JSNum.num b ∧ 0 ≤ a ∧ 0 ≤ b ∧
        interpolateDepth (generateDepthProfile sinStub true wDive7) (1/2)
          = JSNum.num (a + ((1 : ℚ)/2 - (pa.x : ℚ)) * (b - a)) ∧
        0 ≤ a + ((1 : ℚ)/2 - (pa.x : ℚ)) * (b - a))) :=
  ⟨by with_unfolding_all decide, by decide,
    c6_interpolation sinStub true wDive7 (by with_unfolding_all decide) (by decide) (1/2)⟩

end DiveLog
